import Mathlib

/-!
Shallow embedding of the client engine in `sample/script.js`
(class `HighSpeedFileManager`): path normalization, the bounded
directory/search caches with insertion-order eviction, navigation and
history, parallel-pattern search with relevance ranking, virtualized
rendering, and the waveform normalization step, together with proofs of
the spec-level properties stated about them.
-/

namespace FileAgent

/-! ## JavaScript `Map` as an insertion-ordered association list

`Map.set` of a fresh key appends; `Map.set` of an existing key updates the
value in place, keeping the key's original position.  `keys().next().value`
is the earliest-inserted key, so the eviction `cache.delete(firstKey)` drops
the head entry. -/

/-- Lookup in an insertion-ordered map (`Map.get` / `Map.has`). -/
def jsMapGet {α : Type} (m : List (String × α)) (k : String) : Option α :=
  match m with
  | [] => none
  | (k₀, v₀) :: t => if k₀ = k then some v₀ else jsMapGet t k

/-- JS `Map.set`: update in place if the key exists, else append. -/
def jsMapSet {α : Type} (m : List (String × α)) (k : String) (v : α) :
    List (String × α) :=
  match m with
  | [] => [(k, v)]
  | (k₀, v₀) :: t =>
      if k₀ = k then (k₀, v) :: t else (k₀, v₀) :: jsMapSet t k v

/-- The post-insertion size guard used by `navigateToPath` and
`performFastSearch`: when the map has grown beyond `cap`, delete the
earliest-inserted key (`cache.keys().next().value`). -/
def capEvict {α : Type} (cap : Nat) (m : List (String × α)) :
    List (String × α) :=
  if m.length > cap then m.tail else m

/-! ## Data model -/

/-- A directory entry as consumed by the client (`item.name`, `item.path`,
`item.is_file`, `item.size`). -/
structure FileItem where
  name : String
  path : String
  is_file : Bool
  size : Nat := 0
  deriving DecidableEq, Repr

/-- The uniform API response envelope `{success, data, error}` for the
`list`/`search` endpoints, whose `data` is a listing. -/
structure Envelope where
  success : Bool
  data : List FileItem
  error : String := ""
  deriving DecidableEq, Repr

/-- Client engine state: the fields of `HighSpeedFileManager` the claims
are about. -/
structure FMState where
  isOnline : Bool := true
  cache : List (String × Envelope) := []
  prefetchQueue : List String := []
  history : List String := []
  historyIndex : Int := -1
  currentPath : Option String := none
  searchCache : List (String × List FileItem) := []
  isSearchMode : Bool := false
  searchQuery : String := ""
  deriving DecidableEq, Repr

/-! ## Path normalization

`path.replace(/\//g, '\\').replace(/\\+$/, '')`, then re-pad a
two-character drive root `X:` to `X:\`. -/

/-- Normalize a path exactly as `navigateToPath` does. -/
def normalizePath (p : String) : String :=
  let cs := p.data.map (fun c => if c = '/' then '\\' else c)
  let cs := (cs.reverse.dropWhile (fun c => c = '\\')).reverse
  let cs := if cs.length = 2 ∧ cs.getLast? = some ':' then cs ++ ['\\'] else cs
  String.mk cs

/-! ## Cache insertions -/

/-- Directory-cache insertion as performed inside `navigateToPath`:
`cache.set(path, data)` followed by the 100-entry eviction guard. -/
def dirCacheInsert (c : List (String × Envelope)) (k : String)
    (v : Envelope) : List (String × Envelope) :=
  capEvict 100 (jsMapSet c k v)

/-- Search-cache insertion as performed inside `performFastSearch`:
`searchCache.set(cacheKey, finalResults)` followed by the 50-entry
eviction guard. -/
def searchCacheInsert (c : List (String × List FileItem)) (k : String)
    (v : List FileItem) : List (String × List FileItem) :=
  capEvict 50 (jsMapSet c k v)

/-- Cache write performed by a completed prefetch (`prefetchDirectory`):
a bare `cache.set` with no size guard. -/
def prefetchStore (c : List (String × Envelope)) (k : String)
    (v : Envelope) : List (String × Envelope) :=
  jsMapSet c k v

/-- A completed prefetch of `path`: on a successful envelope the listing
is stored (unbounded); failures are discarded. -/
def prefetchDirectory (st : FMState) (api : String → Except String Envelope)
    (path : String) : FMState :=
  match api path with
  | .error _ => st
  | .ok d => if d.success then { st with cache := prefetchStore st.cache path d } else st

/-! ## History -/

/-- JavaScript array indexing with a possibly negative index
(`history[historyIndex]`); a negative or out-of-range index reads
`undefined`, modelled as `none`. -/
def jsIndex {α : Type} (l : List α) (i : Int) : Option α :=
  if i < 0 then none else l.get? i.toNat

/-- The method `addToHistory(path)`: skip if the current entry already equals `path`;
otherwise truncate the forward entries, append, and enforce the 50-entry
cap by shifting the oldest entry off and adjusting the index. -/
def addToHistory (st : FMState) (p : String) : FMState :=
  if jsIndex st.history st.historyIndex = some p then st
  else
    let h := st.history.take (st.historyIndex + 1).toNat ++ [p]
    let i : Int := (h.length : Int) - 1
    if h.length > 50 then { st with history := h.tail, historyIndex := i - 1 }
    else { st with history := h, historyIndex := i }

/-! ## Navigation

`navigateToPath(path, addToHistory)` modelled as a pure function of the
engine state and the external `list` endpoint, returned together with the
paths it passed to that endpoint and the listing it handed to
`renderFileList` (if any). -/

/-- Outcome of one `navigateToPath` call: the new engine state, the paths
sent to the external `list` call, and the listing handed to
`renderFileList`, if the call reached rendering. -/
structure NavResult where
  state : FMState
  apiCalls : List String
  rendered : Option (List FileItem)
  deriving DecidableEq, Repr

/-- The method `queuePrefetch(items)`: enqueue the first five sub-folders of the new
listing whose paths are not already cached. -/
def queuePrefetch (st : FMState) (items : List FileItem) : FMState :=
  let folders := (items.filter (fun it => !it.is_file)).take 5
  let fresh := folders.filter (fun f => jsMapGet st.cache f.path = none)
  { st with prefetchQueue := st.prefetchQueue ++ fresh.map (·.path) }

/-- The success tail of `navigateToPath`: set the current path, optionally
push to history, render the listing, and queue prefetch candidates. -/
def navSuccess (st : FMState) (p : String) (d : Envelope) (addHist : Bool)
    (calls : List String) : NavResult :=
  let st := { st with currentPath := some p }
  let st := if addHist then addToHistory st p else st
  let st := queuePrefetch st d.data
  ⟨st, calls, some d.data⟩

/-- The method `navigateToPath(path, addToHistory)`.  An empty path or offline state
is a no-op; otherwise the path is normalized, the directory cache is
consulted before the external `list` call, a successful fresh listing is
inserted with the 100-entry guard, and a thrown error or unsuccessful
envelope leaves the pre-call state intact (only a status message is
shown). -/
def navigateToPath (st : FMState) (api : String → Except String Envelope)
    (path : String) (addHist : Bool := true) : NavResult :=
  if path = "" ∨ st.isOnline = false then ⟨st, [], none⟩
  else
    let p := normalizePath path
    match jsMapGet st.cache p with
    | some d =>
        if d.success then navSuccess st p d addHist []
        else ⟨st, [], none⟩
    | none =>
        match api p with
        | .error _ => ⟨st, [p], none⟩
        | .ok d =>
            if d.success then
              navSuccess { st with cache := dirCacheInsert st.cache p d } p d
                addHist [p]
            else ⟨st, [p], none⟩

/-- The method `goBack()`: when the index is strictly positive, decrement it and
navigate to the history entry there without touching history. -/
def goBack (st : FMState) (api : String → Except String Envelope) : NavResult :=
  if st.historyIndex > 0 then
    let st := { st with historyIndex := st.historyIndex - 1 }
    navigateToPath st api ((jsIndex st.history st.historyIndex).getD "") false
  else ⟨st, [], none⟩

/-- The method `goForward()`: when the index is below the last entry, increment it and
navigate to the history entry there without touching history. -/
def goForward (st : FMState) (api : String → Except String Envelope) : NavResult :=
  if st.historyIndex < (st.history.length : Int) - 1 then
    let st := { st with historyIndex := st.historyIndex + 1 }
    navigateToPath st api ((jsIndex st.history st.historyIndex).getD "") false
  else ⟨st, [], none⟩

/-! ## Relevance ranking -/

/-- JS `String.prototype.toLowerCase` (ASCII fragment, which covers every
name and query the engine compares). -/
def jsToLower (s : String) : String :=
  String.mk (s.data.map Char.toLower)

/-- Whether the second list is an initial segment of the first
(`String.prototype.startsWith`). -/
def hasPre (hay need : List Char) : Bool :=
  match need, hay with
  | [], _ => true
  | _ :: _, [] => false
  | n :: ns, h :: hs => n = h && hasPre hs ns

/-- Whether `need` occurs contiguously inside `hay`
(`String.prototype.includes`). -/
def strHasSub (hay need : List Char) : Bool :=
  match hay with
  | [] => need.isEmpty
  | _ :: t => hasPre hay need || strHasSub t need

/-- The method `calculateRelevance(filename, query)`: 1000 for an exact
case-insensitive match, 800 for a prefix match, 600 for a match right
after `_`, `-` or a space, 400 for any other substring match, else 0. -/
def calculateRelevance (filename query : String) : Nat :=
  let name := (jsToLower filename).data
  let q := (jsToLower query).data
  if name = q then 1000
  else if hasPre name q then 800
  else if strHasSub name ('_' :: q) || strHasSub name ('-' :: q)
      || strHasSub name (' ' :: q) then 600
  else if strHasSub name q then 400
  else 0

/-- Modelled from the spec's ranking sentence (for the refinement check
against `calculateRelevance`): exact case-insensitive name match scores
1000; case-insensitive prefix match 800; match preceded by `_`, `-`, or a
space 600; any other substring match 400; no match 0. -/
def specRelevance (filename query : String) : Nat :=
  let name := (jsToLower filename).data
  let q := (jsToLower query).data
  if name = q then 1000
  else if hasPre name q then 800
  else if strHasSub name ('_' :: q) || strHasSub name ('-' :: q)
      || strHasSub name (' ' :: q) then 600
  else if strHasSub name q then 400
  else 0

/-! ## Stable sorting

`Array.prototype.sort` with a comparator is a stable sort; it is modelled
extensionally by stable insertion: walking the collection in first-seen
order, each element is placed after every already-placed element the
comparator keeps ahead of it. -/

/-- Insert `a` into `m` after every element `b` with `keepAhead a b`
(for a JS comparator `cmp`, `keepAhead a b` is `cmp(b, a) ≤ 0`, which on
ties keeps the first-seen element first). -/
def jsStableInsert {α : Type} (keepAhead : α → α → Bool) (a : α) :
    List α → List α
  | [] => [a]
  | b :: t =>
      if keepAhead a b then b :: jsStableInsert keepAhead a t else a :: b :: t

/-- The stable comparator sort. -/
def jsStableSort {α : Type} (keepAhead : α → α → Bool) (l : List α) :
    List α :=
  l.foldl (fun acc a => jsStableInsert keepAhead a acc) []

/-- The stable descending sort used on search results
(`finalResults.sort((a, b) => bRelevance - aRelevance)`). -/
def jsSortDesc {α : Type} (sc : α → Nat) (l : List α) : List α :=
  jsStableSort (fun a b => sc a ≤ sc b) l

/-- Sorting of merged search results by `calculateRelevance` against the
query, descending, stable. -/
def searchSort (q : String) (l : List FileItem) : List FileItem :=
  jsSortDesc (fun it => calculateRelevance it.name q) l

/-! ## Search -/

/-- The guard `!query.trim()`: the query is empty or all whitespace. -/
def jsIsBlank (q : String) : Bool :=
  q.data.all (fun c =>
    c = ' ' || c = '\t' || c = '\n' || c = '\r' ||
    c = Char.ofNat 0x0b || c = Char.ofNat 0x0c || c = Char.ofNat 0xa0)

/-- The wildcard patterns issued by one search: always `*query*`, and
additionally `*.query*` when the query is longer than two characters. -/
def searchPatterns (q : String) : List String :=
  ["*" ++ q ++ "*"] ++ if q.length > 2 then ["*." ++ q ++ "*"] else []

/-- Whether a settled search branch contributes results: it fulfilled and
its envelope reports success. -/
def branchOk (r : Except String Envelope) : Bool :=
  match r with
  | .error _ => false
  | .ok d => d.success

/-- One step of the `Promise.allSettled` merge: a rejected branch or an
unsuccessful envelope contributes nothing; a successful envelope keys each
of its items by path into the shared map. -/
def mergeStep (m : List (String × FileItem)) (r : Except String Envelope) :
    List (String × FileItem) :=
  match r with
  | .error _ => m
  | .ok d =>
      if d.success then d.data.foldl (fun m it => jsMapSet m it.path it) m
      else m

/-- The `Promise.allSettled` merge: walk the settled branches in order,
deduplicating by path in one shared map (later occurrences of a path
overwrite earlier ones). -/
def mergeBranches (rs : List (Except String Envelope)) :
    List (String × FileItem) :=
  rs.foldl mergeStep []

/-- Outcome of one `performFastSearch` call: the new engine state, the
`(directory, pattern)` pairs sent to the external `search` endpoint, the
paths sent to the external `list` endpoint (the blank-query branch
re-renders the current directory), and the collection handed to
`renderFileList`, if any. -/
structure SearchResult where
  state : FMState
  searchCalls : List (String × String)
  listCalls : List String
  rendered : Option (List FileItem)
  deriving DecidableEq, Repr

/-- The method `performFastSearch(query)`.  A blank query exits search mode, clears
the whole search cache and re-renders the current directory.  A non-blank
query consults the search cache under `currentPath-or-root : lowercased
query`; on a miss it issues the wildcard patterns concurrently, merges the
settled branches deduplicated by path, sorts by relevance descending
(stable), caches the ranked result with the 50-entry guard, and renders
it. -/
def performFastSearch (st : FMState)
    (listApi : String → Except String Envelope)
    (searchApi : String → String → Except String Envelope)
    (q : String) : SearchResult :=
  if jsIsBlank q then
    let st := { st with isSearchMode := false, searchCache := [] }
    match st.currentPath with
    | some p =>
        let r := navigateToPath st listApi p false
        ⟨r.state, [], r.apiCalls, r.rendered⟩
    | none => ⟨st, [], [], none⟩
  else
    let st := { st with isSearchMode := true, searchQuery := q }
    let key := (st.currentPath.getD "root") ++ ":" ++ jsToLower q
    match jsMapGet st.searchCache key with
    | some cached => ⟨st, [], [], some cached⟩
    | none =>
        let dir := st.currentPath.getD "C:\\"
        let pats := searchPatterns q
        let results := pats.map (searchApi dir)
        let finalResults := (mergeBranches results).map Prod.snd
        let sorted := searchSort q finalResults
        let st := { st with
          searchCache := searchCacheInsert st.searchCache key sorted }
        ⟨st, pats.map (fun pt => (dir, pt)), [], some sorted⟩

/-! ## Rendering -/

/-- The three item views. -/
inductive ViewMode where
  | list | grid | detail
  deriving DecidableEq, Repr

/-- Fixed row height of the virtual list (`virtualScroll.itemHeight`). -/
def itemHeight : Nat := 36

/-- Collections at most this long are rendered in full
(`virtualScrollThreshold`); the guard is `length > 1000`. -/
def virtualScrollThreshold : Nat := 1000

/-- What one render pass puts in the list container: a leading spacer,
the rows actually materialized, and a trailing spacer (spacers are 0 for
full rendering). -/
structure RenderOut where
  topPad : Nat
  shown : List FileItem
  bottomPad : Nat
  deriving DecidableEq, Repr

/-- Lexicographic comparison of character sequences by codepoint. -/
def lexLe : List Char → List Char → Bool
  | [], _ => true
  | _ :: _, [] => false
  | a :: as, b :: bs =>
      if a.toNat < b.toNat then true
      else if b.toNat < a.toNat then false
      else lexLe as bs

/-- The name comparison `a.name.localeCompare(b.name) ≤ 0`, modelled by
codepoint order, which agrees with the locale comparison on the ASCII
names the engine compares. -/
def localeLe (a b : String) : Bool :=
  lexLe a.data b.data

/-- The stable ascending sort by name used on each group in full
rendering, `sort((a, b) => a.name.localeCompare(b.name))`. -/
def jsSortByName (l : List FileItem) : List FileItem :=
  jsStableSort (fun a b => localeLe b.name a.name) l

/-- The method `renderAllItems(items)`: split into folders and files preserving
order, sort each group by name, and lay folders out before files. -/
def renderAllItems (items : List FileItem) : List FileItem :=
  let folders := items.filter (fun it => !it.is_file)
  let files := items.filter (fun it => it.is_file)
  jsSortByName folders ++ jsSortByName files

/-- The method `renderVirtualItems(startIndex, endIndex)`: slice the collection,
with spacers `startIndex * itemHeight` and
`(length - endIndex) * itemHeight`. -/
def renderVirtualItems (items : List FileItem) (startIndex endIndex : Nat) :
    RenderOut :=
  ⟨startIndex * itemHeight,
   (items.drop startIndex).take (endIndex - startIndex),
   (items.length - endIndex) * itemHeight⟩

/-- The method `handleVirtualScroll`: recompute the window from the scroll offset
(`startIndex = floor(scrollTop / itemHeight)`,
`endIndex = min(startIndex + visibleItems + bufferItems, length)`). -/
def handleVirtualScroll (items : List FileItem) (visible buffer : Nat)
    (scrollTop : Nat) : RenderOut :=
  let startIndex := scrollTop / itemHeight
  let endIndex := min (startIndex + visible + buffer) items.length
  renderVirtualItems items startIndex endIndex

/-- The resize formula `Math.ceil(clientHeight / itemHeight)`: the visible-item count
recomputed from the viewport height on resize. -/
def computeVisibleItems (clientHeight : Nat) : Nat :=
  (clientHeight + itemHeight - 1) / itemHeight

/-- The method `renderFileList(items)` routing: an empty collection shows the empty
state; a list-view collection longer than the threshold goes through the
virtual renderer (initial window `[0, visibleItems)`); everything else is
rendered in full by `renderAllItems`. -/
def displayItems (view : ViewMode) (visible : Nat) (items : List FileItem) :
    RenderOut :=
  if items.length = 0 then ⟨0, [], 0⟩
  else if view = ViewMode.list ∧ items.length > virtualScrollThreshold then
    renderVirtualItems items 0 visible
  else ⟨0, renderAllItems items, 0⟩

/-! ## Waveform normalization

`generateRealWaveform` downsamples one decoded channel into `width` block
means and divides each mean by `Math.max(...filteredData)`.  JavaScript
numbers are modelled with an explicit `NaN` and infinities so that the
division `0 / 0` keeps its IEEE meaning instead of collapsing to the
rational convention `0 / 0 = 0`. -/

/-- A JavaScript number: `NaN`, the two infinities, or a finite value
(the finite fragment arising here is exact in ℚ). -/
inductive JVal where
  | nan
  | posInf
  | negInf
  | num (q : ℚ)
  deriving DecidableEq, Repr

/-- IEEE division of a finite value by a finite value. -/
def jsDivQ (a b : ℚ) : JVal :=
  if b = 0 then
    if a = 0 then JVal.nan else if a > 0 then JVal.posInf else JVal.negInf
  else JVal.num (a / b)

/-- IEEE division on the modelled number type (signs of the
infinity-by-infinity and zero-divisor corner cases follow IEEE 754 for
the nonnegative operands arising here). -/
def jvDiv (a b : JVal) : JVal :=
  match a, b with
  | JVal.nan, _ => JVal.nan
  | _, JVal.nan => JVal.nan
  | JVal.num x, JVal.num y => jsDivQ x y
  | JVal.num _, JVal.posInf => JVal.num 0
  | JVal.num _, JVal.negInf => JVal.num 0
  | JVal.posInf, JVal.num y => if y < 0 then JVal.negInf else JVal.posInf
  | JVal.negInf, JVal.num y => if y < 0 then JVal.posInf else JVal.negInf
  | JVal.posInf, JVal.posInf => JVal.nan
  | JVal.posInf, JVal.negInf => JVal.nan
  | JVal.negInf, JVal.posInf => JVal.nan
  | JVal.negInf, JVal.negInf => JVal.nan

/-- JS `Math.max` of two modelled numbers: `NaN` absorbs, otherwise the
usual order with the infinities at the ends. -/
def jvMax (a b : JVal) : JVal :=
  match a, b with
  | JVal.nan, _ => JVal.nan
  | _, JVal.nan => JVal.nan
  | JVal.negInf, y => y
  | x, JVal.negInf => x
  | JVal.posInf, _ => JVal.posInf
  | _, JVal.posInf => JVal.posInf
  | JVal.num x, JVal.num y => JVal.num (max x y)

/-- The spread `Math.max(...filteredData)`: spreading an array folds from
`-Infinity`. -/
def jsMaxList (l : List JVal) : JVal :=
  l.foldl jvMax JVal.negInf

/-- JS `Math.abs` on a finite value. -/
def jsAbs (x : ℚ) : ℚ :=
  if x < 0 then -x else x

/-- Sum of absolute sample amplitudes over block `i` of size `bs`
(the inner `for` loop of the downsampling pass). -/
def blockSum (raw : List ℚ) (bs i : Nat) : ℚ :=
  (List.range bs).foldl (fun s j => s + jsAbs (raw.getD (bs * i + j) 0)) 0

/-- The downsampled series `filteredData`: `width` block means, each
`sum / blockSize` with `blockSize = floor(length / width)`. -/
def filteredData (raw : List ℚ) (width : Nat) : List JVal :=
  let bs := raw.length / width
  (List.range width).map (fun i => jsDivQ (blockSum raw bs i) (bs : ℚ))

/-- The normalization step of `generateRealWaveform`:
`filteredData.map(val => val / maxValue)` with
`maxValue = Math.max(...filteredData)`. -/
def normalizedWaveform (raw : List ℚ) (width : Nat) : List JVal :=
  let fd := filteredData raw width
  let mx := jsMaxList fd
  fd.map (fun v => jvDiv v mx)

/-! ## Lemmas about the insertion-ordered map and the eviction guard -/

theorem jsMapSet_of_not_mem {α : Type} {m : List (String × α)} {k : String}
    (v : α) (h : k ∉ m.map Prod.fst) : jsMapSet m k v = m ++ [(k, v)] := by
  induction m with
  | nil => rfl
  | cons p t ih =>
      obtain ⟨k₀, v₀⟩ := p
      simp only [List.map_cons, List.mem_cons] at h
      push_neg at h
      simp [jsMapSet, Ne.symm h.1, ih h.2]

theorem foldl_fifo {α : Type} (cap : Nat) (hcap : 0 < cap)
    (pairs : List (String × α)) :
    ∀ c : List (String × α), c.length ≤ cap →
      ((c ++ pairs).map Prod.fst).Nodup →
      pairs.foldl (fun m p => capEvict cap (jsMapSet m p.1 p.2)) c
        = (c ++ pairs).drop (c.length + pairs.length - cap) := by
  induction pairs with
  | nil =>
      intro c hc _
      simp [Nat.sub_eq_zero_of_le hc]
  | cons p rest ih =>
      intro c hc hnd
      have hnotin : p.1 ∉ c.map Prod.fst := by
        rw [List.map_append, List.nodup_append] at hnd
        exact fun hmem => hnd.2.2 hmem (by simp)
      rw [List.foldl_cons, jsMapSet_of_not_mem p.2 hnotin]
      by_cases hlen : c.length < cap
      · have hevict : capEvict cap (c ++ [p]) = c ++ [p] := by
          have hng : ¬((c ++ [p]).length > cap) := by simp; omega
          simp only [capEvict, if_neg hng]
        rw [hevict]
        have h1 : (c ++ [p]).length ≤ cap := by simp; omega
        have h2 : ((((c ++ [p]) ++ rest)).map Prod.fst).Nodup := by
          simpa using hnd
        rw [ih (c ++ [p]) h1 h2, List.append_assoc, List.singleton_append]
        congr 1
        simp
        omega
      · have hceq : c.length = cap := le_antisymm hc (not_lt.mp hlen)
        obtain ⟨a, ctl, rfl⟩ : ∃ a ctl, c = a :: ctl := by
          cases c with
          | nil => rw [List.length_nil] at hceq; omega
          | cons a ctl => exact ⟨a, ctl, rfl⟩
        rw [List.length_cons] at hceq
        have hevict : capEvict cap ((a :: ctl) ++ [p]) = ctl ++ [p] := by
          have hg : (a :: (ctl ++ [p])).length > cap := by simp; omega
          simp only [capEvict, List.cons_append, if_pos hg, List.tail_cons]
        rw [hevict]
        have h1 : (ctl ++ [p]).length ≤ cap := by simp; omega
        have h2 : ((((ctl ++ [p]) ++ rest)).map Prod.fst).Nodup := by
          have hsub : List.Sublist ((ctl ++ [p]) ++ rest)
              ((a :: ctl) ++ (p :: rest)) := by
            rw [List.append_assoc, List.singleton_append, List.cons_append]
            exact List.Sublist.cons _ (List.Sublist.refl _)
          exact List.Nodup.sublist (List.Sublist.map Prod.fst hsub) hnd
        rw [ih (ctl ++ [p]) h1 h2]
        have e1 : (ctl ++ [p]).length + rest.length - cap = rest.length := by
          simp
          omega
        have e2 : (a :: ctl).length + (p :: rest).length - cap
            = rest.length + 1 := by
          simp
          omega
        rw [e1, e2, List.append_assoc, List.singleton_append, List.cons_append,
          List.drop_succ_cons]

/-! ## Lemmas about the stable comparator sort -/

theorem jsStableInsert_perm {α : Type} (keep : α → α → Bool) (a : α) :
    ∀ m : List α, (jsStableInsert keep a m).Perm (a :: m) := by
  intro m
  induction m with
  | nil => exact List.Perm.refl _
  | cons b t ih =>
      rw [jsStableInsert]
      split
      · exact (ih.cons b).trans (List.Perm.swap a b t)
      · exact List.Perm.refl _

theorem mem_jsStableInsert {α : Type} {keep : α → α → Bool} {a x : α}
    {m : List α} : x ∈ jsStableInsert keep a m ↔ x = a ∨ x ∈ m := by
  rw [(jsStableInsert_perm keep a m).mem_iff, List.mem_cons]

theorem foldl_jsStableInsert_perm {α : Type} (keep : α → α → Bool) :
    ∀ (l acc : List α),
      (l.foldl (fun m x => jsStableInsert keep x m) acc).Perm (acc ++ l) := by
  intro l
  induction l with
  | nil => intro acc; simp
  | cons a t ih =>
      intro acc
      rw [List.foldl_cons]
      refine (ih (jsStableInsert keep a acc)).trans ?_
      refine (List.Perm.append_right t (jsStableInsert_perm keep a acc)).trans ?_
      exact List.perm_middle.symm

theorem jsStableSort_perm {α : Type} (keep : α → α → Bool) (l : List α) :
    (jsStableSort keep l).Perm l := by
  have h := foldl_jsStableInsert_perm keep l []
  simpa [jsStableSort] using h

theorem jsStableInsert_pairwise {α : Type} {keep : α → α → Bool}
    {R : α → α → Prop} {a : α} :
    ∀ {m : List α}, m.Pairwise R →
      (∀ x ∈ m, keep a x = true → R x a) →
      (∀ x ∈ m, keep a x = false → R a x ∧ ∀ y, R x y → R a y) →
      (jsStableInsert keep a m).Pairwise R := by
  intro m
  induction m with
  | nil => intro _ _ _; simp [jsStableInsert]
  | cons b t ih =>
      intro hp hT hF
      rw [List.pairwise_cons] at hp
      rw [jsStableInsert]
      split
      · rename_i hkeep
        rw [List.pairwise_cons]
        constructor
        · intro x hx
          rcases mem_jsStableInsert.mp hx with rfl | hx
          · exact hT b (by simp) hkeep
          · exact hp.1 x hx
        · exact ih hp.2 (fun x hx => hT x (by simp [hx]))
            (fun x hx => hF x (by simp [hx]))
      · rename_i hkeep
        rw [List.pairwise_cons]
        refine ⟨?_, List.pairwise_cons.mpr hp⟩
        intro x hx
        have hfb := hF b (by simp) (by simpa using hkeep)
        rcases List.mem_cons.mp hx with rfl | hx
        · exact hfb.1
        · exact hfb.2 x (hp.1 x hx)

theorem jsStableSort_pairwise_total {α : Type} {keep : α → α → Bool}
    {R : α → α → Prop}
    (hT : ∀ a x, keep a x = true → R x a)
    (hF : ∀ a x, keep a x = false → R a x)
    (hDom : ∀ a x y, keep a x = false → R x y → R a y) :
    ∀ l : List α, (jsStableSort keep l).Pairwise R := by
  have key : ∀ (l acc : List α), acc.Pairwise R →
      (l.foldl (fun m x => jsStableInsert keep x m) acc).Pairwise R := by
    intro l
    induction l with
    | nil => intro acc h; simpa using h
    | cons a t ih =>
        intro acc h
        rw [List.foldl_cons]
        refine ih _ ?_
        exact jsStableInsert_pairwise h (fun x _ hx => hT a x hx)
          (fun x _ hx => ⟨hF a x hx, fun y hy => hDom a x y hx hy⟩)
  intro l
  exact key l [] List.Pairwise.nil

/-! ## Stability of the relevance sort

The sort is run a second time over the index-tagged collection
(`List.enumFrom`); removing the tags recovers the untagged sort, and the
tagged output is pairwise ordered by the lexicographic key
(score descending, first-seen index ascending), which expresses both the
descending order and the stable tie-break at once. -/

/-- The display order the ranked result must satisfy: strictly greater
score first, and among equal scores the earlier first-seen index first. -/
def LexAfter {α : Type} (sc : α → Nat) (p r : Nat × α) : Prop :=
  sc r.2 < sc p.2 ∨ (sc p.2 = sc r.2 ∧ p.1 < r.1)

theorem jsStableInsert_map_snd {α : Type} (sc : α → Nat) (p : Nat × α) :
    ∀ m : List (Nat × α),
      (jsStableInsert (fun x y => sc x.2 ≤ sc y.2) p m).map Prod.snd
        = jsStableInsert (fun x y => sc x ≤ sc y) p.2 (m.map Prod.snd) := by
  intro m
  induction m with
  | nil => rfl
  | cons q t ih =>
      rw [jsStableInsert, List.map_cons, jsStableInsert]
      by_cases h : sc p.2 ≤ sc q.2
      · rw [if_pos (by simpa using h), if_pos (by simpa using h),
          List.map_cons, ih]
      · rw [if_neg (by simpa using h), if_neg (by simpa using h)]
        simp

theorem foldl_enum_map_snd {α : Type} (sc : α → Nat) :
    ∀ (l : List α) (n : Nat) (acc : List (Nat × α)),
      (List.foldl (fun m p => jsStableInsert (fun x y => sc x.2 ≤ sc y.2) p m)
          acc (l.enumFrom n)).map Prod.snd
        = List.foldl (fun m x => jsStableInsert (fun x y => sc x ≤ sc y) x m)
            (acc.map Prod.snd) l := by
  intro l
  induction l with
  | nil => intro n acc; simp [List.enumFrom]
  | cons a t ih =>
      intro n acc
      rw [List.enumFrom, List.foldl_cons, List.foldl_cons, ih,
        jsStableInsert_map_snd]

theorem foldl_enum_pairwise {α : Type} (sc : α → Nat) :
    ∀ (l : List α) (n : Nat) (acc : List (Nat × α)),
      acc.Pairwise (LexAfter sc) → (∀ x ∈ acc, x.1 < n) →
      (List.foldl (fun m p => jsStableInsert (fun x y => sc x.2 ≤ sc y.2) p m)
          acc (l.enumFrom n)).Pairwise (LexAfter sc) := by
  intro l
  induction l with
  | nil => intro n acc h _; simpa [List.enumFrom] using h
  | cons a t ih =>
      intro n acc h hidx
      rw [List.enumFrom, List.foldl_cons]
      refine ih (n + 1) _ ?_ ?_
      · refine jsStableInsert_pairwise h ?_ ?_
        · intro x hx hkeep
          rcases lt_or_eq_of_le (by simpa using hkeep : sc a ≤ sc x.2) with hlt | heq
          · exact Or.inl hlt
          · exact Or.inr ⟨heq.symm, hidx x hx⟩
        · intro x hx hkeep
          have hlt : sc x.2 < sc a :=
            lt_of_not_le (by simpa using hkeep)
          refine ⟨Or.inl hlt, ?_⟩
          intro y hy
          rcases hy with hy | hy
          · exact Or.inl (hy.trans hlt)
          · exact Or.inl (hy.1 ▸ hlt)
      · intro x hx
        rcases mem_jsStableInsert.mp hx with rfl | hx
        · exact Nat.lt_succ_self n
        · exact (hidx x hx).trans (Nat.lt_succ_self n)

/-! ## The name order is total and transitive -/

theorem lexLe_total : ∀ as bs, lexLe as bs = false → lexLe bs as = true := by
  intro as
  induction as with
  | nil => intro bs h; rw [lexLe] at h; exact absurd h (by simp)
  | cons a as ih =>
      intro bs h
      cases bs with
      | nil => rw [lexLe]
      | cons b bs =>
          rw [lexLe] at h
          by_cases hab : a.toNat < b.toNat
          · rw [if_pos hab] at h
            exact absurd h (by simp)
          · rw [if_neg hab] at h
            by_cases hba : b.toNat < a.toNat
            · rw [lexLe, if_pos hba]
            · rw [if_neg hba] at h
              rw [lexLe, if_neg hba, if_neg hab]
              exact ih bs h

theorem lexLe_trans : ∀ as bs cs, lexLe as bs = true → lexLe bs cs = true →
    lexLe as cs = true := by
  intro as
  induction as with
  | nil => intro bs cs _ _; rw [lexLe]
  | cons a as ih =>
      intro bs cs h1 h2
      cases bs with
      | nil => rw [lexLe] at h1; exact absurd h1 (by simp)
      | cons b bs =>
          cases cs with
          | nil => rw [lexLe] at h2; exact absurd h2 (by simp)
          | cons c cs =>
              rw [lexLe] at h1 h2 ⊢
              by_cases hab : a.toNat < b.toNat
              · by_cases hbc : b.toNat < c.toNat
                · rw [if_pos (by omega : a.toNat < c.toNat)]
                · rw [if_neg hbc] at h2
                  by_cases hcb : c.toNat < b.toNat
                  · rw [if_pos hcb] at h2
                    exact absurd h2 (by simp)
                  · rw [if_pos (by omega : a.toNat < c.toNat)]
              · rw [if_neg hab] at h1
                by_cases hba : b.toNat < a.toNat
                · rw [if_pos hba] at h1
                  exact absurd h1 (by simp)
                · rw [if_neg hba] at h1
                  by_cases hbc : b.toNat < c.toNat
                  · rw [if_pos (by omega : a.toNat < c.toNat)]
                  · rw [if_neg hbc] at h2
                    by_cases hcb : c.toNat < b.toNat
                    · rw [if_pos hcb] at h2
                      exact absurd h2 (by simp)
                    · rw [if_neg hcb] at h2
                      rw [if_neg (by omega : ¬a.toNat < c.toNat),
                        if_neg (by omega : ¬c.toNat < a.toNat)]
                      exact ih bs cs h1 h2

/-! ## Lemmas about the search-branch merge -/

theorem mergeStep_of_fail {m : List (String × FileItem)}
    {r : Except String Envelope} (h : branchOk r = false) :
    mergeStep m r = m := by
  cases r with
  | error e => rfl
  | ok d =>
      have hd : d.success = false := by simpa [branchOk] using h
      simp [mergeStep, hd]

theorem foldl_mergeStep_filter :
    ∀ (rs : List (Except String Envelope)) (acc : List (String × FileItem)),
      rs.foldl mergeStep acc = (rs.filter branchOk).foldl mergeStep acc := by
  intro rs
  induction rs with
  | nil => intro acc; rfl
  | cons r t ih =>
      intro acc
      rw [List.foldl_cons, List.filter_cons]
      by_cases h : branchOk r = true
      · rw [if_pos h, List.foldl_cons, ih]
      · rw [if_neg h, mergeStep_of_fail (by simpa using h), ih]

theorem mergeBranches_all_fail {rs : List (Except String Envelope)}
    (h : ∀ r ∈ rs, branchOk r = false) : mergeBranches rs = [] := by
  rw [mergeBranches, foldl_mergeStep_filter]
  have he : rs.filter branchOk = [] := by
    rw [List.filter_eq_nil_iff]
    intro r hr
    simp [h r hr]
  rw [he]
  rfl

/-! ## Navigation leaves unrelated state components alone -/

theorem addToHistory_fields (st : FMState) (p : String) :
    (addToHistory st p).cache = st.cache ∧
    (addToHistory st p).searchCache = st.searchCache ∧
    (addToHistory st p).isSearchMode = st.isSearchMode ∧
    (addToHistory st p).isOnline = st.isOnline ∧
    (addToHistory st p).prefetchQueue = st.prefetchQueue ∧
    (addToHistory st p).currentPath = st.currentPath := by
  rw [addToHistory]
  split
  · simp
  · dsimp only
    split <;> simp

theorem navSuccess_fields (st : FMState) (p : String) (d : Envelope)
    (ah : Bool) (cs : List String) :
    (navSuccess st p d ah cs).state.searchCache = st.searchCache ∧
    (navSuccess st p d ah cs).state.isSearchMode = st.isSearchMode ∧
    (navSuccess st p d ah cs).state.isOnline = st.isOnline ∧
    (navSuccess st p d ah cs).state.cache = st.cache ∧
    (navSuccess st p d ah cs).state.currentPath = some p ∧
    (navSuccess st p d ah cs).rendered = some d.data ∧
    (navSuccess st p d ah cs).apiCalls = cs := by
  rw [navSuccess]
  dsimp only
  cases ah with
  | false => simp [queuePrefetch]
  | true =>
      rw [if_pos rfl]
      have h := addToHistory_fields { st with currentPath := some p } p
      simp only [queuePrefetch]
      refine ⟨?_, ?_, ?_, ?_, ?_, ?_, ?_⟩
      · simp [h.2.1]
      · simp [h.2.2.1]
      · simp [h.2.2.2.1]
      · simp [h.1]
      · simp [h.2.2.2.2.2]
      · trivial
      · trivial

theorem navSuccess_noHistory (st : FMState) (p : String) (d : Envelope)
    (cs : List String) :
    (navSuccess st p d false cs).state.history = st.history ∧
    (navSuccess st p d false cs).state.historyIndex = st.historyIndex := by
  rw [navSuccess]
  simp [queuePrefetch]

theorem navigateToPath_fields (st : FMState)
    (api : String → Except String Envelope) (p : String) (ah : Bool) :
    (navigateToPath st api p ah).state.searchCache = st.searchCache ∧
    (navigateToPath st api p ah).state.isSearchMode = st.isSearchMode ∧
    (navigateToPath st api p ah).state.isOnline = st.isOnline := by
  rw [navigateToPath]
  split
  · exact ⟨rfl, rfl, rfl⟩
  · dsimp only
    split
    · split
      · exact ⟨(navSuccess_fields st (normalizePath p) _ ah []).1,
          (navSuccess_fields st (normalizePath p) _ ah []).2.1,
          (navSuccess_fields st (normalizePath p) _ ah []).2.2.1⟩
      · exact ⟨rfl, rfl, rfl⟩
    · split
      · exact ⟨rfl, rfl, rfl⟩
      · split
        · exact ⟨(navSuccess_fields _ (normalizePath p) _ ah [normalizePath p]).1,
            (navSuccess_fields _ (normalizePath p) _ ah [normalizePath p]).2.1,
            (navSuccess_fields _ (normalizePath p) _ ah [normalizePath p]).2.2.1⟩
        · exact ⟨rfl, rfl, rfl⟩

theorem navigateToPath_noHistory (st : FMState)
    (api : String → Except String Envelope) (p : String) :
    (navigateToPath st api p false).state.history = st.history ∧
    (navigateToPath st api p false).state.historyIndex = st.historyIndex := by
  rw [navigateToPath]
  split
  · exact ⟨rfl, rfl⟩
  · dsimp only
    split
    · split
      · exact navSuccess_noHistory st (normalizePath p) _ []
      · exact ⟨rfl, rfl⟩
    · split
      · exact ⟨rfl, rfl⟩
      · split
        · exact ⟨(navSuccess_noHistory _ (normalizePath p) _ [normalizePath p]).1,
            (navSuccess_noHistory _ (normalizePath p) _ [normalizePath p]).2⟩
        · exact ⟨rfl, rfl⟩

theorem navSuccess_history_true (st : FMState) (p : String) (d : Envelope)
    (cs : List String) :
    (navSuccess st p d true cs).state.history
      = (addToHistory { st with currentPath := some p } p).history
    ∧ (navSuccess st p d true cs).state.historyIndex
      = (addToHistory { st with currentPath := some p } p).historyIndex := by
  rw [navSuccess]
  dsimp only
  rw [if_pos rfl]
  constructor <;> simp [queuePrefetch]

/-- Evaluating one cache-hit navigation with `addToHistory = false`
(the shape used by `goBack` / `goForward`). -/
theorem navigateToPath_hit_false (st : FMState)
    (api : String → Except String Envelope) (p : String) (d : Envelope)
    (hp : ¬(p = "" ∨ st.isOnline = false)) (hnorm : normalizePath p = p)
    (hhit : jsMapGet st.cache p = some d) (hd : d.success = true) :
    (navigateToPath st api p false).state.currentPath = some p ∧
    (navigateToPath st api p false).state.history = st.history ∧
    (navigateToPath st api p false).state.historyIndex = st.historyIndex ∧
    (navigateToPath st api p false).state.cache = st.cache ∧
    (navigateToPath st api p false).state.isOnline = st.isOnline ∧
    (navigateToPath st api p false).apiCalls = [] ∧
    (navigateToPath st api p false).rendered = some d.data := by
  rw [navigateToPath, if_neg hp]
  dsimp only
  rw [hnorm, hhit]
  dsimp only
  rw [if_pos hd]
  have h := navSuccess_fields st p d false []
  have h2 := navSuccess_noHistory st p d []
  exact ⟨h.2.2.2.2.1, h2.1, h2.2, h.2.2.2.1, h.2.2.1, h.2.2.2.2.2.2,
    h.2.2.2.2.2.1⟩

/-- Evaluating one cache-miss navigation whose external call succeeds. -/
theorem navigateToPath_fresh_true (st : FMState)
    (api : String → Except String Envelope) (p : String) (d : Envelope)
    (hp : ¬(p = "" ∨ st.isOnline = false)) (hnorm : normalizePath p = p)
    (hmiss : jsMapGet st.cache p = none) (hapi : api p = Except.ok d)
    (hd : d.success = true) :
    navigateToPath st api p true
      = navSuccess { st with cache := dirCacheInsert st.cache p d } p d
          true [p] := by
  rw [navigateToPath, if_neg hp]
  dsimp only
  rw [hnorm, hmiss]
  dsimp only
  rw [hapi]
  dsimp only
  rw [if_pos hd]

/-! ## Rendering helper lemmas -/

/-- The window is a contiguous, order-preserving segment of the source
collection. -/
def contiguousIn {α : Type} (w l : List α) : Prop :=
  ∃ pre post, l = pre ++ w ++ post

theorem renderAllItems_perm (items : List FileItem) :
    (renderAllItems items).Perm items := by
  rw [renderAllItems]
  refine (List.Perm.append (jsStableSort_perm _ _) (jsStableSort_perm _ _)).trans ?_
  have h := List.filter_append_perm (fun it : FileItem => !it.is_file) items
  refine List.Perm.trans ?_ h
  have : (List.filter (fun x : FileItem => !!x.is_file) items)
      = List.filter (fun x : FileItem => x.is_file) items := by
    simp
  rw [this]

theorem renderVirtualItems_contiguous (items : List FileItem)
    (s e : Nat) :
    contiguousIn (renderVirtualItems items s e).shown items := by
  refine ⟨items.take s, (items.drop s).drop (e - s), ?_⟩
  rw [renderVirtualItems]
  dsimp only
  rw [List.append_assoc, List.take_append_drop, List.take_append_drop]

/-! ## Claim theorems -/

/-- Claim C9: when a `navigateToPath` call fails — the external `list`
call throws (rejects / times out) or returns an unsuccessful envelope —
the whole engine state is left unchanged: current path, history, caches
and prefetch queue are exactly as before, and nothing is rendered (the
error is only surfaced as a status message). -/
theorem navigate_failure_preserves_state (st : FMState)
    (api : String → Except String Envelope) (p : String)
    (hmiss : jsMapGet st.cache (normalizePath p) = none)
    (hfail : (∃ e, api (normalizePath p) = Except.error e) ∨
      (∃ d, api (normalizePath p) = Except.ok d ∧ d.success = false)) :
    (navigateToPath st api p true).state = st ∧
    (navigateToPath st api p true).rendered = none := by
  rw [navigateToPath]
  split
  · exact ⟨rfl, rfl⟩
  · dsimp only
    rw [hmiss]
    rcases hfail with ⟨e, he⟩ | ⟨d, hd, hds⟩
    · rw [he]
      exact ⟨rfl, rfl⟩
    · rw [hd]
      dsimp only
      rw [if_neg (by simp [hds])]
      exact ⟨rfl, rfl⟩

/-- Witness for C9 at a concrete failing call. -/
theorem navigate_failure_preserves_state_witness :
    (navigateToPath {} (fun _ => Except.error "HTTP 500") "C:\\Users" true).state
        = ({} : FMState)
    ∧ (navigateToPath {} (fun _ => Except.error "HTTP 500") "C:\\Users" true).rendered
        = none :=
  navigate_failure_preserves_state {} (fun _ => Except.error "HTTP 500")
    "C:\\Users" rfl (Or.inl ⟨"HTTP 500", rfl⟩)

/-- Claim C2: a navigation whose normalized path is already in the
Directory Cache issues zero external `list` calls and renders exactly the
cached listing; in particular after a first `navigate("C:\")` whose
external `list` call returned a 3-entry listing, an immediately following
second `navigate("C:\")` issues no external call and renders the
identical 3 entries. -/
theorem navigate_cache_hit_zero_calls (st : FMState)
    (api api2 : String → Except String Envelope) (p : String) (d : Envelope)
    (es : List FileItem) (err : String)
    (hhit : jsMapGet st.cache (normalizePath p) = some d)
    (hd : d.success = true)
    (hp : ¬(p = "" ∨ st.isOnline = false))
    (hapi : api2 "C:\\" = Except.ok ⟨true, es, err⟩)
    (_hlen : es.length = 3) :
    ((navigateToPath st api p true).apiCalls = []
      ∧ (navigateToPath st api p true).rendered = some d.data)
    ∧ ((navigateToPath ({} : FMState) api2 "C:\\" true).apiCalls = ["C:\\"]
      ∧ (navigateToPath
          (navigateToPath ({} : FMState) api2 "C:\\" true).state
          api2 "C:\\" true).apiCalls = []
      ∧ (navigateToPath
          (navigateToPath ({} : FMState) api2 "C:\\" true).state
          api2 "C:\\" true).rendered = some es) := by
  have hgen : ∀ (s : FMState) (f : String → Except String Envelope)
      (q : String) (dv : Envelope),
      jsMapGet s.cache (normalizePath q) = some dv → dv.success = true →
      ¬(q = "" ∨ s.isOnline = false) →
      (navigateToPath s f q true).apiCalls = [] ∧
      (navigateToPath s f q true).rendered = some dv.data := by
    intro s f q dv hh hds hq
    rw [navigateToPath, if_neg hq]
    dsimp only
    rw [hh]
    dsimp only
    rw [if_pos hds]
    exact ⟨(navSuccess_fields s (normalizePath q) dv true []).2.2.2.2.2.2,
      (navSuccess_fields s (normalizePath q) dv true []).2.2.2.2.2.1⟩
  refine ⟨hgen st api p d hhit hd hp, ?_⟩
  have normC : normalizePath "C:\\" = "C:\\" := by decide
  have hC : ¬(("C:\\" : String) = "" ∨ (({} : FMState)).isOnline = false) := by
    decide
  have hnav1 : navigateToPath ({} : FMState) api2 "C:\\" true
      = navSuccess { ({} : FMState) with
            cache := dirCacheInsert ([] : List (String × Envelope)) "C:\\"
              ⟨true, es, err⟩ }
          "C:\\" ⟨true, es, err⟩ true ["C:\\"] :=
    navigateToPath_fresh_true ({} : FMState) api2 "C:\\" ⟨true, es, err⟩
      hC normC rfl hapi rfl
  have hf := navSuccess_fields
    { ({} : FMState) with
        cache := dirCacheInsert ([] : List (String × Envelope)) "C:\\"
          ⟨true, es, err⟩ }
    "C:\\" ⟨true, es, err⟩ true ["C:\\"]
  have hcalls1 : (navigateToPath ({} : FMState) api2 "C:\\" true).apiCalls
      = ["C:\\"] := by rw [hnav1]; exact hf.2.2.2.2.2.2
  have hcache1 : (navigateToPath ({} : FMState) api2 "C:\\" true).state.cache
      = [("C:\\", ⟨true, es, err⟩)] := by
    rw [hnav1]
    exact hf.2.2.2.1
  have honline1 :
      (navigateToPath ({} : FMState) api2 "C:\\" true).state.isOnline
        = true := by
    rw [hnav1]
    exact hf.2.2.1
  have hhit2 : jsMapGet
      (navigateToPath ({} : FMState) api2 "C:\\" true).state.cache
      (normalizePath "C:\\") = some ⟨true, es, err⟩ := by
    rw [hcache1, normC]
    rfl
  have hp2 : ¬(("C:\\" : String) = ""
      ∨ (navigateToPath ({} : FMState) api2 "C:\\" true).state.isOnline
          = false) := by
    rintro (h | h)
    · exact absurd h (by decide)
    · rw [honline1] at h
      exact absurd h (by decide)
  have h2 := hgen (navigateToPath ({} : FMState) api2 "C:\\" true).state api2
    "C:\\" ⟨true, es, err⟩ hhit2 rfl hp2
  exact ⟨hcalls1, h2.1, h2.2⟩

/-- Witness for C2 at a concrete cached state and a concrete 3-entry
listing. -/
theorem navigate_cache_hit_zero_calls_witness :
    ((navigateToPath
        { cache := [("C:\\", ⟨true, [⟨"a", "C:\\a", true, 1⟩], ""⟩)] }
        (fun _ => Except.error "down") "C:\\" true).apiCalls = []
      ∧ (navigateToPath
          { cache := [("C:\\", ⟨true, [⟨"a", "C:\\a", true, 1⟩], ""⟩)] }
          (fun _ => Except.error "down") "C:\\" true).rendered
        = some [⟨"a", "C:\\a", true, 1⟩])
    ∧ ((navigateToPath ({} : FMState)
          (fun _ => Except.ok ⟨true, [⟨"a", "C:\\a", true, 1⟩,
            ⟨"b", "C:\\b", true, 2⟩, ⟨"c", "C:\\c", false, 0⟩], ""⟩)
          "C:\\" true).apiCalls = ["C:\\"]
      ∧ (navigateToPath
          (navigateToPath ({} : FMState)
            (fun _ => Except.ok ⟨true, [⟨"a", "C:\\a", true, 1⟩,
              ⟨"b", "C:\\b", true, 2⟩, ⟨"c", "C:\\c", false, 0⟩], ""⟩)
            "C:\\" true).state
          (fun _ => Except.ok ⟨true, [⟨"a", "C:\\a", true, 1⟩,
            ⟨"b", "C:\\b", true, 2⟩, ⟨"c", "C:\\c", false, 0⟩], ""⟩)
          "C:\\" true).apiCalls = []
      ∧ (navigateToPath
          (navigateToPath ({} : FMState)
            (fun _ => Except.ok ⟨true, [⟨"a", "C:\\a", true, 1⟩,
              ⟨"b", "C:\\b", true, 2⟩, ⟨"c", "C:\\c", false, 0⟩], ""⟩)
            "C:\\" true).state
          (fun _ => Except.ok ⟨true, [⟨"a", "C:\\a", true, 1⟩,
            ⟨"b", "C:\\b", true, 2⟩, ⟨"c", "C:\\c", false, 0⟩], ""⟩)
          "C:\\" true).rendered
        = some [⟨"a", "C:\\a", true, 1⟩, ⟨"b", "C:\\b", true, 2⟩,
            ⟨"c", "C:\\c", false, 0⟩]) :=
  navigate_cache_hit_zero_calls
    { cache := [("C:\\", ⟨true, [⟨"a", "C:\\a", true, 1⟩], ""⟩)] }
    (fun _ => Except.error "down")
    (fun _ => Except.ok ⟨true, [⟨"a", "C:\\a", true, 1⟩,
      ⟨"b", "C:\\b", true, 2⟩, ⟨"c", "C:\\c", false, 0⟩], ""⟩)
    "C:\\" ⟨true, [⟨"a", "C:\\a", true, 1⟩], ""⟩
    [⟨"a", "C:\\a", true, 1⟩, ⟨"b", "C:\\b", true, 2⟩,
      ⟨"c", "C:\\c", false, 0⟩] ""
    (by decide) rfl (by decide) rfl (by decide)

/-- Claim C7: a non-blank query with no cache hit issues the substring
pattern, plus the extension pattern exactly when the query is longer than
two characters; a failed branch contributes nothing to the merge, and
when every issued branch fails the rendered result is the empty list
(stored in the search cache as such), with no external `list` call and no
propagated error. -/
theorem search_failure_tolerance (st : FMState)
    (listApi : String → Except String Envelope)
    (searchApi : String → String → Except String Envelope) (q : String)
    (hq : jsIsBlank q = false)
    (hmiss : jsMapGet st.searchCache
      ((st.currentPath.getD "root") ++ ":" ++ jsToLower q) = none)
    (hfail1 : branchOk (searchApi (st.currentPath.getD "C:\\")
      ("*" ++ q ++ "*")) = false)
    (hfail2 : branchOk (searchApi (st.currentPath.getD "C:\\")
      ("*." ++ q ++ "*")) = false) :
    (performFastSearch st listApi searchApi q).searchCalls
        = (searchPatterns q).map (fun pt => (st.currentPath.getD "C:\\", pt))
    ∧ searchPatterns q
        = (if q.length > 2 then ["*" ++ q ++ "*", "*." ++ q ++ "*"]
           else ["*" ++ q ++ "*"])
    ∧ mergeBranches
          ((searchPatterns q).map (searchApi (st.currentPath.getD "C:\\")))
        = mergeBranches (((searchPatterns q).map
            (searchApi (st.currentPath.getD "C:\\"))).filter branchOk)
    ∧ (performFastSearch st listApi searchApi q).rendered = some []
    ∧ (performFastSearch st listApi searchApi q).state.searchCache
        = searchCacheInsert st.searchCache
            ((st.currentPath.getD "root") ++ ":" ++ jsToLower q) []
    ∧ (performFastSearch st listApi searchApi q).listCalls = [] := by
  have hpat : searchPatterns q
      = (if q.length > 2 then ["*" ++ q ++ "*", "*." ++ q ++ "*"]
         else ["*" ++ q ++ "*"]) := by
    by_cases h : q.length > 2 <;> simp [searchPatterns, h]
  have hallfail : ∀ r ∈ (searchPatterns q).map
      (searchApi (st.currentPath.getD "C:\\")), branchOk r = false := by
    intro r hr
    rw [List.mem_map] at hr
    obtain ⟨pt, hpt, rfl⟩ := hr
    rw [hpat] at hpt
    by_cases h : q.length > 2
    · rw [if_pos h] at hpt
      rcases List.mem_cons.mp hpt with rfl | hpt
      · exact hfail1
      · rcases List.mem_cons.mp hpt with rfl | hpt
        · exact hfail2
        · exact absurd hpt (List.not_mem_nil _)
    · rw [if_neg h] at hpt
      rcases List.mem_cons.mp hpt with rfl | hpt
      · exact hfail1
      · exact absurd hpt (List.not_mem_nil _)
  have hmerge0 : mergeBranches ((searchPatterns q).map
      (searchApi (st.currentPath.getD "C:\\"))) = [] :=
    mergeBranches_all_fail hallfail
  have hfilter : mergeBranches
        ((searchPatterns q).map (searchApi (st.currentPath.getD "C:\\")))
      = mergeBranches (((searchPatterns q).map
          (searchApi (st.currentPath.getD "C:\\"))).filter branchOk) := by
    rw [mergeBranches, mergeBranches, foldl_mergeStep_filter]
  rw [performFastSearch, if_neg (by simp [hq])]
  dsimp only
  rw [hmiss]
  dsimp only
  refine ⟨rfl, hpat, hfilter, ?_, ?_, rfl⟩
  · rw [hmerge0]
    rfl
  · rw [hmerge0]
    rfl

/-- Witness for C7: a three-character query whose two branches are both
rejected by the endpoint. -/
theorem search_failure_tolerance_witness :
    (performFastSearch {} (fun _ => Except.error "x")
        (fun _ _ => Except.error "refused") "abc").searchCalls
        = (searchPatterns "abc").map (fun pt => ("C:\\", pt))
    ∧ searchPatterns "abc"
        = (if ("abc" : String).length > 2 then ["*abc*", "*.abc*"]
           else ["*abc*"])
    ∧ mergeBranches
          ((searchPatterns "abc").map
            ((fun _ _ => Except.error "refused" :
              String → String → Except String Envelope) "C:\\"))
        = mergeBranches (((searchPatterns "abc").map
            ((fun _ _ => Except.error "refused" :
              String → String → Except String Envelope) "C:\\")).filter
              branchOk)
    ∧ (performFastSearch {} (fun _ => Except.error "x")
        (fun _ _ => Except.error "refused") "abc").rendered = some []
    ∧ (performFastSearch {} (fun _ => Except.error "x")
        (fun _ _ => Except.error "refused") "abc").state.searchCache
        = searchCacheInsert [] ("root:abc") []
    ∧ (performFastSearch {} (fun _ => Except.error "x")
        (fun _ _ => Except.error "refused") "abc").listCalls = [] :=
  search_failure_tolerance {} (fun _ => Except.error "x")
    (fun _ _ => Except.error "refused") "abc" (by decide) rfl rfl rfl

/-- Claim C10: a blank (empty or whitespace-only) query clears the entire
Search Cache and exits search mode before re-rendering the current
directory, so a later repeat of any earlier query misses the cache and
re-issues its external search patterns. -/
theorem blank_search_clears_cache (st : FMState)
    (listApi listApi2 : String → Except String Envelope)
    (searchApi searchApi2 : String → String → Except String Envelope)
    (q q2 p : String)
    (hq : jsIsBlank q = true) (hq2 : jsIsBlank q2 = false)
    (hcur : st.currentPath = some p) :
    (performFastSearch st listApi searchApi q).state.searchCache = []
    ∧ (performFastSearch st listApi searchApi q).state.isSearchMode = false
    ∧ (performFastSearch st listApi searchApi q).listCalls
        = (navigateToPath { st with isSearchMode := false, searchCache := [] }
            listApi p false).apiCalls
    ∧ (performFastSearch st listApi searchApi q).rendered
        = (navigateToPath { st with isSearchMode := false, searchCache := [] }
            listApi p false).rendered
    ∧ (performFastSearch
          (performFastSearch st listApi searchApi q).state
          listApi2 searchApi2 q2).searchCalls
        = (searchPatterns q2).map (fun pt =>
            ((performFastSearch st listApi searchApi q).state.currentPath.getD
              "C:\\", pt)) := by
  have hreissue : ∀ s : FMState, s.searchCache = [] →
      (performFastSearch s listApi2 searchApi2 q2).searchCalls
        = (searchPatterns q2).map (fun pt => (s.currentPath.getD "C:\\", pt)) := by
    intro s hs
    rw [performFastSearch, if_neg (by simp [hq2])]
    dsimp only
    rw [show jsMapGet s.searchCache
        ((s.currentPath.getD "root") ++ ":" ++ jsToLower q2) = none from by
      rw [hs]; rfl]
  rw [performFastSearch, if_pos hq]
  dsimp only
  split
  · rename_i heq
    rw [hcur] at heq
    injection heq with heq
    subst heq
    have hf := navigateToPath_fields
      { st with isSearchMode := false, searchCache := [] } listApi p false
    exact ⟨hf.1, hf.2.1, rfl, rfl, hreissue _ hf.1⟩
  · rename_i heq
    rw [hcur] at heq
    exact absurd heq (by simp)

/-- Witness for C10: a whitespace query against a state with a populated
search cache, followed by a repeated query. -/
theorem blank_search_clears_cache_witness :
    (performFastSearch
        { currentPath := some "C:\\", isSearchMode := true,
          searchCache := [("C:\\:abc", [])] }
        (fun _ => Except.ok ⟨true, [], ""⟩) (fun _ _ => Except.error "x")
        "  ").state.searchCache = []
    ∧ (performFastSearch
        { currentPath := some "C:\\", isSearchMode := true,
          searchCache := [("C:\\:abc", [])] }
        (fun _ => Except.ok ⟨true, [], ""⟩) (fun _ _ => Except.error "x")
        "  ").state.isSearchMode = false
    ∧ (performFastSearch
        { currentPath := some "C:\\", isSearchMode := true,
          searchCache := [("C:\\:abc", [])] }
        (fun _ => Except.ok ⟨true, [], ""⟩) (fun _ _ => Except.error "x")
        "  ").listCalls
        = (navigateToPath ({ currentPath := some "C:\\" } : FMState)
            (fun _ => Except.ok ⟨true, [], ""⟩) "C:\\" false).apiCalls
    ∧ (performFastSearch
        { currentPath := some "C:\\", isSearchMode := true,
          searchCache := [("C:\\:abc", [])] }
        (fun _ => Except.ok ⟨true, [], ""⟩) (fun _ _ => Except.error "x")
        "  ").rendered
        = (navigateToPath ({ currentPath := some "C:\\" } : FMState)
            (fun _ => Except.ok ⟨true, [], ""⟩) "C:\\" false).rendered
    ∧ (performFastSearch
        (performFastSearch
          { currentPath := some "C:\\", isSearchMode := true,
            searchCache := [("C:\\:abc", [])] }
          (fun _ => Except.ok ⟨true, [], ""⟩) (fun _ _ => Except.error "x")
          "  ").state
        (fun _ => Except.error "y") (fun _ _ => Except.error "z")
        "abc").searchCalls
        = (searchPatterns "abc").map (fun pt =>
            ((performFastSearch
              { currentPath := some "C:\\", isSearchMode := true,
                searchCache := [("C:\\:abc", [])] }
              (fun _ => Except.ok ⟨true, [], ""⟩) (fun _ _ => Except.error "x")
              "  ").state.currentPath.getD "C:\\", pt)) :=
  blank_search_clears_cache
    { currentPath := some "C:\\", isSearchMode := true,
      searchCache := [("C:\\:abc", [])] }
    (fun _ => Except.ok ⟨true, [], ""⟩) (fun _ => Except.error "y")
    (fun _ _ => Except.error "x") (fun _ _ => Except.error "z")
    "  " "abc" "C:\\" (by decide) (by decide) rfl

/-! ## Back/forward evaluation helpers -/

theorem addToHistory_append (s : FMState) (p : String)
    (hne : jsIndex s.history s.historyIndex ≠ some p)
    (hlen : (s.history.take (s.historyIndex + 1).toNat ++ [p]).length ≤ 50) :
    (addToHistory s p).history
      = s.history.take (s.historyIndex + 1).toNat ++ [p]
    ∧ (addToHistory s p).historyIndex
      = ((s.history.take (s.historyIndex + 1).toNat ++ [p]).length : Int)
          - 1 := by
  rw [addToHistory, if_neg hne]
  dsimp only
  rw [if_neg (by omega)]
  exact ⟨rfl, rfl⟩

theorem goBack_eval (s : FMState) (api : String → Except String Envelope)
    (p : String) (d : Envelope)
    (hs : 0 < s.historyIndex)
    (hjs : jsIndex s.history (s.historyIndex - 1) = some p)
    (hp : ¬(p = "" ∨ s.isOnline = false)) (hnorm : normalizePath p = p)
    (hhit : jsMapGet s.cache p = some d) (hd : d.success = true) :
    (goBack s api).state.currentPath = some p
    ∧ (goBack s api).state.history = s.history
    ∧ (goBack s api).state.historyIndex = s.historyIndex - 1
    ∧ (goBack s api).state.cache = s.cache
    ∧ (goBack s api).state.isOnline = s.isOnline := by
  rw [goBack, if_pos hs]
  dsimp only
  rw [hjs]
  have h := navigateToPath_hit_false
    { s with historyIndex := s.historyIndex - 1 } api p d hp hnorm hhit hd
  exact ⟨h.1, h.2.1, h.2.2.1, h.2.2.2.1, h.2.2.2.2.1⟩

theorem goForward_eval (s : FMState) (api : String → Except String Envelope)
    (p : String) (d : Envelope)
    (hs : s.historyIndex < (s.history.length : Int) - 1)
    (hjs : jsIndex s.history (s.historyIndex + 1) = some p)
    (hp : ¬(p = "" ∨ s.isOnline = false)) (hnorm : normalizePath p = p)
    (hhit : jsMapGet s.cache p = some d) (hd : d.success = true) :
    (goForward s api).state.currentPath = some p
    ∧ (goForward s api).state.history = s.history
    ∧ (goForward s api).state.historyIndex = s.historyIndex + 1
    ∧ (goForward s api).state.cache = s.cache
    ∧ (goForward s api).state.isOnline = s.isOnline := by
  rw [goForward, if_pos hs]
  dsimp only
  rw [hjs]
  have h := navigateToPath_hit_false
    { s with historyIndex := s.historyIndex + 1 } api p d hp hnorm hhit hd
  exact ⟨h.1, h.2.1, h.2.2.1, h.2.2.2.1, h.2.2.2.2.1⟩

/-- Evaluating one fresh (cache-miss) successful navigation that appends
to history without overflowing the 50-entry cap. -/
theorem navStep_facts (s : FMState) (api : String → Except String Envelope)
    (p : String) (d : Envelope)
    (hOn : s.isOnline = true)
    (hpe : p ≠ "") (hnorm : normalizePath p = p)
    (hmiss : jsMapGet s.cache p = none)
    (hapi : api p = Except.ok d) (hd : d.success = true)
    (hne : jsIndex s.history s.historyIndex ≠ some p)
    (hlen : (s.history.take (s.historyIndex + 1).toNat ++ [p]).length ≤ 50) :
    (navigateToPath s api p true).state.currentPath = some p
    ∧ (navigateToPath s api p true).state.cache = dirCacheInsert s.cache p d
    ∧ (navigateToPath s api p true).state.isOnline = true
    ∧ (navigateToPath s api p true).state.history
        = s.history.take (s.historyIndex + 1).toNat ++ [p]
    ∧ (navigateToPath s api p true).state.historyIndex
        = ((s.history.take (s.historyIndex + 1).toNat ++ [p]).length : Int)
            - 1 := by
  have hp : ¬(p = "" ∨ s.isOnline = false) := by simp [hpe, hOn]
  rw [navigateToPath_fresh_true s api p d hp hnorm hmiss hapi hd]
  refine ⟨?_, ?_, ?_, ?_, ?_⟩
  · exact (navSuccess_fields _ p d true [p]).2.2.2.2.1
  · exact (navSuccess_fields _ p d true [p]).2.2.2.1
  · exact ((navSuccess_fields _ p d true [p]).2.2.1).trans hOn
  · exact ((navSuccess_history_true _ p d [p]).1).trans
      (addToHistory_append
        { s with cache := dirCacheInsert s.cache p d, currentPath := some p }
        p hne hlen).1
  · exact ((navSuccess_history_true _ p d [p]).2).trans
      (addToHistory_append
        { s with cache := dirCacheInsert s.cache p d, currentPath := some p }
        p hne hlen).2

/-- Claim C3: `goBack` / `goForward` move the history index by exactly
one within bounds and navigate to the history entry at the new index
without touching the history list, and each is a no-op at its bound;
consequently after `navigate(A); navigate(B); navigate(C)` on three
distinct fresh paths, `goBack(); goBack()` yields current path `A` and a
subsequent `goForward()` yields `B`. -/
theorem history_back_forward
    (st₁ st₂ st₃ st₄ : FMState)
    (api api3 : String → Except String Envelope)
    (A B C : String) (dA dB dC : Envelope)
    (h1 : st₁.historyIndex ≤ 0)
    (h2 : (st₂.history.length : Int) - 1 ≤ st₂.historyIndex)
    (h3 : 0 < st₃.historyIndex)
    (h4 : st₄.historyIndex < (st₄.history.length : Int) - 1)
    (hAn : normalizePath A = A) (hBn : normalizePath B = B)
    (hCn : normalizePath C = C)
    (hAe : A ≠ "") (hBe : B ≠ "") (hCe : C ≠ "")
    (hAB : A ≠ B) (hAC : A ≠ C) (hBC : B ≠ C)
    (hapiA : api3 A = Except.ok dA) (hdA : dA.success = true)
    (hapiB : api3 B = Except.ok dB) (hdB : dB.success = true)
    (hapiC : api3 C = Except.ok dC) (hdC : dC.success = true) :
    goBack st₁ api = ⟨st₁, [], none⟩
    ∧ goForward st₂ api = ⟨st₂, [], none⟩
    ∧ (goBack st₃ api).state.historyIndex = st₃.historyIndex - 1
    ∧ (goBack st₃ api).state.history = st₃.history
    ∧ (goForward st₄ api).state.historyIndex = st₄.historyIndex + 1
    ∧ (goForward st₄ api).state.history = st₄.history
    ∧ (goBack (goBack (navigateToPath (navigateToPath (navigateToPath
        ({} : FMState) api3 A true).state api3 B true).state api3 C
        true).state api3).state api3).state.currentPath = some A
    ∧ (goForward (goBack (goBack (navigateToPath (navigateToPath
        (navigateToPath ({} : FMState) api3 A true).state api3 B
        true).state api3 C true).state api3).state api3).state
        api3).state.currentPath = some B := by
  refine ⟨?_, ?_, ?_, ?_, ?_, ?_, ?_, ?_⟩
  · rw [goBack, if_neg (not_lt.mpr h1)]
  · rw [goForward, if_neg (not_lt.mpr h2)]
  · rw [goBack, if_pos h3]
    exact (navigateToPath_noHistory _ api _).2
  · rw [goBack, if_pos h3]
    exact (navigateToPath_noHistory _ api _).1
  · rw [goForward, if_pos h4]
    exact (navigateToPath_noHistory _ api _).2
  · rw [goForward, if_pos h4]
    exact (navigateToPath_noHistory _ api _).1
  all_goals {
    have hstep1 := navStep_facts ({} : FMState) api3 A dA rfl hAe hAn rfl
      hapiA hdA (by simp [jsIndex]) (by simp)
    have hc1 : (navigateToPath ({} : FMState) api3 A true).state.cache
        = [(A, dA)] := hstep1.2.1
    have ho1 : (navigateToPath ({} : FMState) api3 A true).state.isOnline
        = true := hstep1.2.2.1
    have hh1 : (navigateToPath ({} : FMState) api3 A true).state.history
        = [A] := hstep1.2.2.2.1
    have hi1 : (navigateToPath ({} : FMState) api3 A true).state.historyIndex
        = 0 := hstep1.2.2.2.2
    have hstep2 := navStep_facts
      (navigateToPath ({} : FMState) api3 A true).state api3 B dB ho1 hBe hBn
      (by rw [hc1]; simp [jsMapGet, hAB])
      hapiB hdB
      (by rw [hh1, hi1]; simp [jsIndex, hAB])
      (by rw [hh1, hi1]; simp)
    have hc2 : (navigateToPath (navigateToPath ({} : FMState) api3 A
        true).state api3 B true).state.cache = [(A, dA), (B, dB)] := by
      have h := hstep2.2.1
      rw [hc1] at h
      rw [h]
      simp [dirCacheInsert, jsMapSet, capEvict, hAB]
    have ho2 : (navigateToPath (navigateToPath ({} : FMState) api3 A
        true).state api3 B true).state.isOnline = true := hstep2.2.2.1
    have hh2 : (navigateToPath (navigateToPath ({} : FMState) api3 A
        true).state api3 B true).state.history = [A, B] := by
      have h := hstep2.2.2.2.1
      rw [hh1, hi1] at h
      simpa using h
    have hi2 : (navigateToPath (navigateToPath ({} : FMState) api3 A
        true).state api3 B true).state.historyIndex = 1 := by
      have h := hstep2.2.2.2.2
      rw [hh1, hi1] at h
      simpa using h
    have hstep3 := navStep_facts
      (navigateToPath (navigateToPath ({} : FMState) api3 A true).state api3
        B true).state api3 C dC ho2 hCe hCn
      (by rw [hc2]; simp [jsMapGet, hAC, hBC])
      hapiC hdC
      (by rw [hh2, hi2]; simp [jsIndex, hBC])
      (by rw [hh2, hi2]; simp)
    have hc3 : (navigateToPath (navigateToPath (navigateToPath
        ({} : FMState) api3 A true).state api3 B true).state api3 C
        true).state.cache = [(A, dA), (B, dB), (C, dC)] := by
      have h := hstep3.2.1
      rw [hc2] at h
      rw [h]
      simp [dirCacheInsert, jsMapSet, capEvict, hAC, hBC]
    have ho3 : (navigateToPath (navigateToPath (navigateToPath
        ({} : FMState) api3 A true).state api3 B true).state api3 C
        true).state.isOnline = true := hstep3.2.2.1
    have hh3 : (navigateToPath (navigateToPath (navigateToPath
        ({} : FMState) api3 A true).state api3 B true).state api3 C
        true).state.history = [A, B, C] := by
      have h := hstep3.2.2.2.1
      rw [hh2, hi2] at h
      simpa using h
    have hi3 : (navigateToPath (navigateToPath (navigateToPath
        ({} : FMState) api3 A true).state api3 B true).state api3 C
        true).state.historyIndex = 2 := by
      have h := hstep3.2.2.2.2
      rw [hh2, hi2] at h
      simpa using h
    have hG1 := goBack_eval
      (navigateToPath (navigateToPath (navigateToPath ({} : FMState) api3 A
        true).state api3 B true).state api3 C true).state api3 B dB
      (by rw [hi3]; norm_num)
      (by rw [hh3, hi3]; simp [jsIndex])
      (by simp [hBe, ho3])
      hBn
      (by rw [hc3]; simp [jsMapGet, hAB])
      hdB
    have hG1i : (goBack (navigateToPath (navigateToPath (navigateToPath
        ({} : FMState) api3 A true).state api3 B true).state api3 C
        true).state api3).state.historyIndex = 1 := by
      rw [hG1.2.2.1, hi3]
      norm_num
    have hG1h : (goBack (navigateToPath (navigateToPath (navigateToPath
        ({} : FMState) api3 A true).state api3 B true).state api3 C
        true).state api3).state.history = [A, B, C] := by
      rw [hG1.2.1, hh3]
    have hG1c : (goBack (navigateToPath (navigateToPath (navigateToPath
        ({} : FMState) api3 A true).state api3 B true).state api3 C
        true).state api3).state.cache = [(A, dA), (B, dB), (C, dC)] := by
      rw [hG1.2.2.2.1, hc3]
    have hG1o : (goBack (navigateToPath (navigateToPath (navigateToPath
        ({} : FMState) api3 A true).state api3 B true).state api3 C
        true).state api3).state.isOnline = true := by
      rw [hG1.2.2.2.2, ho3]
    have hG2 := goBack_eval
      (goBack (navigateToPath (navigateToPath (navigateToPath
        ({} : FMState) api3 A true).state api3 B true).state api3 C
        true).state api3).state api3 A dA
      (by rw [hG1i]; norm_num)
      (by rw [hG1h, hG1i]; simp [jsIndex])
      (by simp [hAe, hG1o])
      hAn
      (by rw [hG1c]; simp [jsMapGet])
      hdA
    have hG2i : (goBack (goBack (navigateToPath (navigateToPath
        (navigateToPath ({} : FMState) api3 A true).state api3 B true).state
        api3 C true).state api3).state api3).state.historyIndex = 0 := by
      rw [hG2.2.2.1, hG1i]
      norm_num
    have hG2h : (goBack (goBack (navigateToPath (navigateToPath
        (navigateToPath ({} : FMState) api3 A true).state api3 B true).state
        api3 C true).state api3).state api3).state.history = [A, B, C] := by
      rw [hG2.2.1, hG1h]
    have hG2c : (goBack (goBack (navigateToPath (navigateToPath
        (navigateToPath ({} : FMState) api3 A true).state api3 B true).state
        api3 C true).state api3).state api3).state.cache
        = [(A, dA), (B, dB), (C, dC)] := by
      rw [hG2.2.2.2.1, hG1c]
    have hG2o : (goBack (goBack (navigateToPath (navigateToPath
        (navigateToPath ({} : FMState) api3 A true).state api3 B true).state
        api3 C true).state api3).state api3).state.isOnline = true := by
      rw [hG2.2.2.2.2, hG1o]
    first
    | exact hG2.1
    | {
        have hF := goForward_eval
          (goBack (goBack (navigateToPath (navigateToPath (navigateToPath
            ({} : FMState) api3 A true).state api3 B true).state api3 C
            true).state api3).state api3).state api3 B dB
          (by rw [hG2i, hG2h]; norm_num)
          (by rw [hG2h, hG2i]; simp [jsIndex])
          (by simp [hBe, hG2o])
          hBn
          (by rw [hG2c]; simp [jsMapGet, hAB])
          hdB
        exact hF.1
      }
  }

/-- Witness for C3 on concrete states, paths and a concrete endpoint. -/
theorem history_back_forward_witness :
    goBack ({} : FMState) (fun _ => Except.error "down") = ⟨{}, [], none⟩
    ∧ goForward ({} : FMState) (fun _ => Except.error "down")
        = ⟨{}, [], none⟩
    ∧ (goBack ({ history := ["C:\\x", "C:\\y"], historyIndex := 1 } : FMState)
        (fun _ => Except.error "down")).state.historyIndex
        = ({ history := ["C:\\x", "C:\\y"], historyIndex := 1 }
            : FMState).historyIndex - 1
    ∧ (goBack ({ history := ["C:\\x", "C:\\y"], historyIndex := 1 } : FMState)
        (fun _ => Except.error "down")).state.history
        = ["C:\\x", "C:\\y"]
    ∧ (goForward ({ history := ["C:\\x", "C:\\y"], historyIndex := 0 }
          : FMState)
        (fun _ => Except.error "down")).state.historyIndex
        = ({ history := ["C:\\x", "C:\\y"], historyIndex := 0 }
            : FMState).historyIndex + 1
    ∧ (goForward ({ history := ["C:\\x", "C:\\y"], historyIndex := 0 }
          : FMState)
        (fun _ => Except.error "down")).state.history
        = ["C:\\x", "C:\\y"]
    ∧ (goBack (goBack (navigateToPath (navigateToPath (navigateToPath
        ({} : FMState) (fun _ => Except.ok ⟨true, [], ""⟩) "C:\\a"
        true).state (fun _ => Except.ok ⟨true, [], ""⟩) "C:\\b" true).state
        (fun _ => Except.ok ⟨true, [], ""⟩) "C:\\c" true).state
        (fun _ => Except.ok ⟨true, [], ""⟩)).state
        (fun _ => Except.ok ⟨true, [], ""⟩)).state.currentPath
        = some "C:\\a"
    ∧ (goForward (goBack (goBack (navigateToPath (navigateToPath
        (navigateToPath ({} : FMState) (fun _ => Except.ok ⟨true, [], ""⟩)
        "C:\\a" true).state (fun _ => Except.ok ⟨true, [], ""⟩) "C:\\b"
        true).state (fun _ => Except.ok ⟨true, [], ""⟩) "C:\\c" true).state
        (fun _ => Except.ok ⟨true, [], ""⟩)).state
        (fun _ => Except.ok ⟨true, [], ""⟩)).state
        (fun _ => Except.ok ⟨true, [], ""⟩)).state.currentPath
        = some "C:\\b" :=
  history_back_forward ({} : FMState) ({} : FMState)
    ({ history := ["C:\\x", "C:\\y"], historyIndex := 1 } : FMState)
    ({ history := ["C:\\x", "C:\\y"], historyIndex := 0 } : FMState)
    (fun _ => Except.error "down") (fun _ => Except.ok ⟨true, [], ""⟩)
    "C:\\a" "C:\\b" "C:\\c" ⟨true, [], ""⟩ ⟨true, [], ""⟩ ⟨true, [], ""⟩
    (by decide) (by decide) (by decide) (by decide)
    (by decide) (by decide) (by decide)
    (by decide) (by decide) (by decide)
    (by decide) (by decide) (by decide)
    rfl rfl rfl rfl rfl rfl

/-- Claim C4: `calculateRelevance` scores exactly as the spec describes
(refinement against `specRelevance`); the result sort is a permutation of
the merged collection, equals the untagged projection of the index-tagged
sort, and the tagged sort is pairwise ordered by score descending with
the first-seen index breaking ties (stability); on the query `"log"` over
the four example names the order is `log.txt`, `my-log-file.txt`, then
`catalog.txt` and `backlog.txt` in first-seen order, with scores
800 / 600 / 400 / 400. -/
theorem relevance_ranking_spec :
    (∀ name q, calculateRelevance name q = specRelevance name q)
    ∧ (∀ (q : String) (l : List FileItem), (searchSort q l).Perm l)
    ∧ (∀ (q : String) (l : List FileItem),
        searchSort q l
          = (jsStableSort (fun x y : Nat × FileItem =>
              calculateRelevance x.2.name q ≤ calculateRelevance y.2.name q)
              l.enum).map Prod.snd)
    ∧ (∀ (q : String) (l : List FileItem),
        (jsStableSort (fun x y : Nat × FileItem =>
            calculateRelevance x.2.name q ≤ calculateRelevance y.2.name q)
            l.enum).Pairwise
          (LexAfter (fun it : FileItem => calculateRelevance it.name q)))
    ∧ (calculateRelevance "log.txt" "log" = 800
       ∧ calculateRelevance "my-log-file.txt" "log" = 600
       ∧ calculateRelevance "catalog.txt" "log" = 400
       ∧ calculateRelevance "backlog.txt" "log" = 400)
    ∧ searchSort "log"
        [⟨"log.txt", "p1", true, 0⟩, ⟨"catalog.txt", "p2", true, 0⟩,
         ⟨"my-log-file.txt", "p3", true, 0⟩, ⟨"backlog.txt", "p4", true, 0⟩]
        = [⟨"log.txt", "p1", true, 0⟩, ⟨"my-log-file.txt", "p3", true, 0⟩,
           ⟨"catalog.txt", "p2", true, 0⟩, ⟨"backlog.txt", "p4", true, 0⟩] := by
  refine ⟨fun _ _ => rfl, ?_, ?_, ?_, by decide, by decide⟩
  · intro q l
    exact jsStableSort_perm _ l
  · intro q l
    have h := foldl_enum_map_snd (fun it : FileItem => calculateRelevance it.name q)
      l 0 []
    rw [searchSort, jsSortDesc, jsStableSort, jsStableSort, List.enum]
    exact h.symm
  · intro q l
    have h := foldl_enum_pairwise
      (fun it : FileItem => calculateRelevance it.name q) l 0 []
      List.Pairwise.nil (by simp)
    rw [jsStableSort, List.enum]
    exact h

/-- Claim C5 counterexample: a relevance-ranked two-item search result
(`b.txt` at 800 before `ab.txt` at 400, exactly as `performFastSearch`
renders it) is displayed by the non-virtual render path in the order
`ab.txt`, `b.txt` — the name sort of `renderAllItems`, not the
relevance-rank order, so search-mode display does not preserve the ranked
order. -/
theorem search_order_resorted :
    (performFastSearch ({ currentPath := some "C:\\" } : FMState)
        (fun _ => Except.error "x")
        (fun _ _ => Except.ok ⟨true, [⟨"b.txt", "pb", true, 0⟩,
          ⟨"ab.txt", "pa", true, 0⟩], ""⟩)
        "b").rendered
      = some [⟨"b.txt", "pb", true, 0⟩, ⟨"ab.txt", "pa", true, 0⟩]
    ∧ (displayItems ViewMode.list 50
        [⟨"b.txt", "pb", true, 0⟩, ⟨"ab.txt", "pa", true, 0⟩]).shown
      = [⟨"ab.txt", "pa", true, 0⟩, ⟨"b.txt", "pb", true, 0⟩]
    ∧ (displayItems ViewMode.list 50
        [⟨"b.txt", "pb", true, 0⟩, ⟨"ab.txt", "pa", true, 0⟩]).shown
      ≠ [⟨"b.txt", "pb", true, 0⟩, ⟨"ab.txt", "pa", true, 0⟩] := by
  decide

/-- Claim C5 (amended): the full (non-virtual) render path — which is
also the path search results of at most 1000 items take, so search-mode
display is re-sorted rather than rank-preserving — lays directories
before files with each group ordered by name (stable), and the virtual
window renders a contiguous, order-preserving slice of the collection
handed to it. -/
theorem render_order_amended (view : ViewMode) (visible : Nat)
    (items itemsV : List FileItem) (s e : Nat)
    (hlen : items.length ≤ virtualScrollThreshold) :
    displayItems view visible items = ⟨0, renderAllItems items, 0⟩
    ∧ (renderAllItems items).Perm items
    ∧ (renderAllItems items).Pairwise
        (fun a b => a.is_file = true → b.is_file = true)
    ∧ (renderAllItems items).Pairwise
        (fun a b => a.is_file = b.is_file → localeLe a.name b.name = true)
    ∧ contiguousIn (renderVirtualItems itemsV s e).shown itemsV := by
  refine ⟨?_, renderAllItems_perm items, ?_, ?_,
    renderVirtualItems_contiguous itemsV s e⟩
  · rw [displayItems]
    by_cases h0 : items.length = 0
    · rw [if_pos h0]
      have he : items = [] := List.length_eq_zero.mp h0
      subst he
      rfl
    · rw [if_neg h0, if_neg (fun hc => absurd hc.2 (by omega))]
  · rw [renderAllItems]
    rw [List.pairwise_append]
    have hmemF : ∀ a ∈ jsSortByName
        (items.filter (fun it => !it.is_file)), a.is_file = false := by
      intro a ha
      have := ((jsStableSort_perm _ _).mem_iff.mp (by rw [jsSortByName] at ha; exact ha))
      simpa using (List.of_mem_filter this)
    have hmemT : ∀ a ∈ jsSortByName
        (items.filter (fun it => it.is_file)), a.is_file = true := by
      intro a ha
      have := ((jsStableSort_perm _ _).mem_iff.mp (by rw [jsSortByName] at ha; exact ha))
      simpa using (List.of_mem_filter this)
    refine ⟨?_, ?_, ?_⟩
    · exact List.pairwise_of_forall_mem_list
        (fun a ha b _ hfa => absurd (hmemF a ha) (by simp [hfa]))
    · exact List.pairwise_of_forall_mem_list
        (fun a _ b hb _ => hmemT b hb)
    · exact fun a _ b hb _ => hmemT b hb
  · have hsorted : ∀ l : List FileItem,
        (jsSortByName l).Pairwise
          (fun a b => localeLe a.name b.name = true) := by
      intro l
      refine jsStableSort_pairwise_total ?_ ?_ ?_ l
      · intro a x h
        exact h
      · intro a x h
        exact lexLe_total _ _ h
      · intro a x y h hxy
        exact lexLe_trans _ _ _ (lexLe_total _ _ h) hxy
    have himp : ∀ l : List FileItem,
        (jsSortByName l).Pairwise
          (fun a b : FileItem =>
            a.is_file = b.is_file → localeLe a.name b.name = true) := by
      intro l
      refine List.Pairwise.imp ?_ (hsorted l)
      intro a b h _
      exact h
    rw [renderAllItems]
    rw [List.pairwise_append]
    have hmemF : ∀ a ∈ jsSortByName
        (items.filter (fun it => !it.is_file)), a.is_file = false := by
      intro a ha
      have := ((jsStableSort_perm _ _).mem_iff.mp (by rw [jsSortByName] at ha; exact ha))
      simpa using (List.of_mem_filter this)
    have hmemT : ∀ a ∈ jsSortByName
        (items.filter (fun it => it.is_file)), a.is_file = true := by
      intro a ha
      have := ((jsStableSort_perm _ _).mem_iff.mp (by rw [jsSortByName] at ha; exact ha))
      simpa using (List.of_mem_filter this)
    refine ⟨himp _, himp _, ?_⟩
    intro a ha b hb heq
    rw [hmemF a ha, hmemT b hb] at heq
    exact absurd heq (by simp)

/-- Witness for C5 at a concrete mixed listing and a concrete window. -/
theorem render_order_amended_witness :
    displayItems ViewMode.list 50
        [⟨"d2", "p1", false, 0⟩, ⟨"z.txt", "p2", true, 0⟩,
         ⟨"d1", "p3", false, 0⟩]
      = ⟨0, renderAllItems [⟨"d2", "p1", false, 0⟩, ⟨"z.txt", "p2", true, 0⟩,
          ⟨"d1", "p3", false, 0⟩], 0⟩
    ∧ (renderAllItems [⟨"d2", "p1", false, 0⟩, ⟨"z.txt", "p2", true, 0⟩,
        ⟨"d1", "p3", false, 0⟩]).Perm
        [⟨"d2", "p1", false, 0⟩, ⟨"z.txt", "p2", true, 0⟩,
         ⟨"d1", "p3", false, 0⟩]
    ∧ (renderAllItems [⟨"d2", "p1", false, 0⟩, ⟨"z.txt", "p2", true, 0⟩,
        ⟨"d1", "p3", false, 0⟩]).Pairwise
        (fun a b => a.is_file = true → b.is_file = true)
    ∧ (renderAllItems [⟨"d2", "p1", false, 0⟩, ⟨"z.txt", "p2", true, 0⟩,
        ⟨"d1", "p3", false, 0⟩]).Pairwise
        (fun a b => a.is_file = b.is_file → localeLe a.name b.name = true)
    ∧ contiguousIn (renderVirtualItems
        [⟨"d2", "p1", false, 0⟩, ⟨"z.txt", "p2", true, 0⟩,
         ⟨"d1", "p3", false, 0⟩] 1 3).shown
        [⟨"d2", "p1", false, 0⟩, ⟨"z.txt", "p2", true, 0⟩,
         ⟨"d1", "p3", false, 0⟩] :=
  render_order_amended ViewMode.list 50
    [⟨"d2", "p1", false, 0⟩, ⟨"z.txt", "p2", true, 0⟩,
     ⟨"d1", "p3", false, 0⟩]
    [⟨"d2", "p1", false, 0⟩, ⟨"z.txt", "p2", true, 0⟩,
     ⟨"d1", "p3", false, 0⟩] 1 3 (by decide)

/-- Modelled from the claim's words (claim side, for the boundary check):
the window render the claim prescribes for any ordered collection whose
length is not below the 1000 threshold — `startIndex =
floor(scrollOffset / 36)`, `endIndex = min(startIndex + visibleCount +
10, length)`, the slice `[startIndex, endIndex)` between spacers
`startIndex * 36` and `(length - endIndex) * 36`. -/
def claimedWindow (visible scrollOffset : Nat) (items : List FileItem) :
    RenderOut :=
  let s := scrollOffset / 36
  let e := min (s + visible + 10) items.length
  ⟨s * 36, (items.drop s).take (e - s), (items.length - e) * 36⟩

/-- Claim C6 counterexample: at a collection of exactly 1000 items in
list view the claim prescribes the virtual window (its length is not
below the threshold), but `renderFileList` only virtualizes strictly
above 1000 (`items.length > this.virtualScrollThreshold`), so every item
is rendered directly: the displayed output (1000 rows, no spacers)
differs from the claimed 60-row window. -/
theorem virtual_threshold_boundary :
    (List.replicate 1000 (⟨"f.txt", "p", true, 0⟩ : FileItem)).length = 1000
    ∧ displayItems ViewMode.list 50
        (List.replicate 1000 (⟨"f.txt", "p", true, 0⟩ : FileItem))
      ≠ claimedWindow 50 0
          (List.replicate 1000 (⟨"f.txt", "p", true, 0⟩ : FileItem)) := by
  constructor
  · rw [List.length_replicate]
  · intro h
    have hlens := congrArg (fun r : RenderOut => r.shown.length) h
    have hdisp : displayItems ViewMode.list 50
        (List.replicate 1000 (⟨"f.txt", "p", true, 0⟩ : FileItem))
        = ⟨0, renderAllItems
            (List.replicate 1000 (⟨"f.txt", "p", true, 0⟩ : FileItem)), 0⟩ := by
      rw [displayItems,
        if_neg (by simp only [List.length_replicate]; decide),
        if_neg (fun hc => absurd hc.2 (by
          simp only [List.length_replicate, virtualScrollThreshold]
          decide))]
    rw [hdisp] at hlens
    dsimp only at hlens
    have hleft : (renderAllItems
        (List.replicate 1000 (⟨"f.txt", "p", true, 0⟩ : FileItem))).length
        = 1000 := by
      rw [(renderAllItems_perm _).length_eq, List.length_replicate]
    have hright : ((claimedWindow 50 0
        (List.replicate 1000
          (⟨"f.txt", "p", true, 0⟩ : FileItem))).shown).length
        = 60 := by
      rw [claimedWindow]
      dsimp only
      simp only [List.length_take, List.length_drop, List.length_replicate]
      decide
    rw [hleft, hright] at hlens
    exact absurd hlens (by norm_num)

/-- Claim C6 (amended): a list-view collection of at most 1000 items is
rendered in full (every item appears); strictly above the threshold the
scroll handler computes exactly the claimed window — `startIndex =
floor(scrollOffset / 36)`, `endIndex = min(startIndex + visibleCount +
bufferCount, length)`, the slice `[startIndex, endIndex)` between spacers
`startIndex * 36` and `(length - endIndex) * 36`; with 5000 items,
viewport 720 (so visibleCount = 20) and scrollOffset 3600 the window
starts at 100, the slice length is visibleCount + 10, the leading spacer
is 3600 and the trailing one (5000 - 130) * 36. -/
theorem virtual_window_amended (visible buffer scrollTop : Nat)
    (items big : List FileItem)
    (hsmall : items.length ≤ virtualScrollThreshold)
    (hbig : big.length = 5000) :
    (displayItems ViewMode.list visible items).shown.Perm items
    ∧ handleVirtualScroll big visible buffer scrollTop
        = ⟨(scrollTop / 36) * 36,
           (big.drop (scrollTop / 36)).take
             (min (scrollTop / 36 + visible + buffer) big.length
               - scrollTop / 36),
           (big.length - min (scrollTop / 36 + visible + buffer) big.length)
             * 36⟩
    ∧ computeVisibleItems 720 = 20
    ∧ handleVirtualScroll big (computeVisibleItems 720) 10 3600
        = ⟨3600, (big.drop 100).take 30, (5000 - 130) * 36⟩
    ∧ ((big.drop 100).take 30).length = computeVisibleItems 720 + 10 := by
  refine ⟨?_, rfl, by decide, ?_, ?_⟩
  · have h : displayItems ViewMode.list visible items
        = ⟨0, renderAllItems items, 0⟩ := by
      rw [displayItems]
      by_cases h0 : items.length = 0
      · rw [if_pos h0]
        have he : items = [] := List.length_eq_zero.mp h0
        subst he
        rfl
      · rw [if_neg h0, if_neg (fun hc => absurd hc.2 (by omega))]
    rw [h]
    exact renderAllItems_perm items
  · rw [handleVirtualScroll, renderVirtualItems, hbig]
    norm_num [itemHeight, computeVisibleItems]
  · simp only [List.length_take, List.length_drop, hbig]
    decide

/-- Witness for C6 at concrete collections. -/
theorem virtual_window_amended_witness :
    (displayItems ViewMode.list 20
        [(⟨"f.txt", "p", true, 0⟩ : FileItem)]).shown.Perm
        [(⟨"f.txt", "p", true, 0⟩ : FileItem)]
    ∧ handleVirtualScroll
        (List.replicate 5000 (⟨"f.txt", "p", true, 0⟩ : FileItem)) 20 10 3600
        = ⟨(3600 / 36) * 36,
           ((List.replicate 5000 (⟨"f.txt", "p", true, 0⟩ : FileItem)).drop
               (3600 / 36)).take
             (min (3600 / 36 + 20 + 10)
               (List.replicate 5000
                 (⟨"f.txt", "p", true, 0⟩ : FileItem)).length - 3600 / 36),
           ((List.replicate 5000 (⟨"f.txt", "p", true, 0⟩ : FileItem)).length
             - min (3600 / 36 + 20 + 10)
               (List.replicate 5000
                 (⟨"f.txt", "p", true, 0⟩ : FileItem)).length) * 36⟩
    ∧ computeVisibleItems 720 = 20
    ∧ handleVirtualScroll
        (List.replicate 5000 (⟨"f.txt", "p", true, 0⟩ : FileItem))
        (computeVisibleItems 720) 10 3600
        = ⟨3600,
           ((List.replicate 5000
             (⟨"f.txt", "p", true, 0⟩ : FileItem)).drop 100).take 30,
           (5000 - 130) * 36⟩
    ∧ (((List.replicate 5000
          (⟨"f.txt", "p", true, 0⟩ : FileItem)).drop 100).take 30).length
        = computeVisibleItems 720 + 10 :=
  virtual_window_amended 20 10 3600
    [(⟨"f.txt", "p", true, 0⟩ : FileItem)]
    (List.replicate 5000 (⟨"f.txt", "p", true, 0⟩ : FileItem))
    (by decide) (by rw [List.length_replicate])

/-- Claim C8 (code bug): on an all-silent channel every block mean is 0,
so `maxValue = Math.max(...filteredData) = 0` and the normalization
`val / maxValue` computes `0 / 0 = NaN` for every point — the code
divides by zero and produces an all-`NaN` series, not the all-zero
fallback the spec requires; a non-silent channel (shown at `[1,0,1,1]`,
width 2) is normalized correctly with maximum exactly 1. -/
theorem waveform_silent_division :
    normalizedWaveform [0, 0, 0, 0] 2 = [JVal.nan, JVal.nan]
    ∧ normalizedWaveform [0, 0, 0, 0] 2 ≠ [JVal.num 0, JVal.num 0]
    ∧ normalizedWaveform [1, 0, 1, 1] 2 = [JVal.num (1 / 2), JVal.num 1] := by
  have h0 : normalizedWaveform [0, 0, 0, 0] 2 = [JVal.nan, JVal.nan] := by
    simp [normalizedWaveform, filteredData, blockSum, jsDivQ, jvDiv,
      jsMaxList, jvMax, jsAbs, List.range_succ]
  refine ⟨h0, ?_, ?_⟩
  · rw [h0]
    decide
  · simp [normalizedWaveform, filteredData, blockSum, jsDivQ, jvDiv,
      jsMaxList, jvMax, jsAbs, List.range_succ]
    norm_num

/-- Claim C1 counterexample: completed prefetches write to the Directory
Cache with a bare `cache.set` and no eviction, so a sequence of 101
prefetch completions on distinct paths leaves the cache holding 101
entries — more than the claimed 100-entry bound. -/
theorem dirCache_prefetch_overflow :
    (((List.range 101).map (fun i => String.mk [Char.ofNat (65 + i)])).foldl
        (fun st p => prefetchDirectory st
          (fun _ => Except.ok ⟨true, [], ""⟩) p)
        ({} : FMState)).cache.length = 101
    ∧ ¬((((List.range 101).map
        (fun i => String.mk [Char.ofNat (65 + i)])).foldl
        (fun st p => prefetchDirectory st
          (fun _ => Except.ok ⟨true, [], ""⟩) p)
        ({} : FMState)).cache.length ≤ 100) := by
  decide

/-- Claim C1 (amended): the guarded insertion paths do respect the
bounds — folding any sequence of distinct-key insertions through
`navigateToPath`'s directory-cache insertion (`dirCacheInsert`, cap 100)
or `performFastSearch`'s search-cache insertion (`searchCacheInsert`,
cap 50) from an empty cache retains exactly the suffix of the
most-recently-inserted entries (the earliest-inserted entry is evicted
first) and never exceeds the cap; the bound fails only for the unguarded
prefetch write shown in the counterexample. -/
theorem cache_capacity_fifo (dps : List (String × Envelope))
    (sps : List (String × List FileItem))
    (hd : (dps.map Prod.fst).Nodup) (hs : (sps.map Prod.fst).Nodup) :
    dps.foldl (fun c p => dirCacheInsert c p.1 p.2) []
      = dps.drop (dps.length - 100)
    ∧ (dps.foldl (fun c p => dirCacheInsert c p.1 p.2) []).length ≤ 100
    ∧ sps.foldl (fun c p => searchCacheInsert c p.1 p.2) []
      = sps.drop (sps.length - 50)
    ∧ (sps.foldl (fun c p => searchCacheInsert c p.1 p.2) []).length ≤ 50 := by
  have h100 := foldl_fifo 100 (by norm_num) dps []
    (by simp) (by simpa using hd)
  have h50 := foldl_fifo 50 (by norm_num) sps []
    (by simp) (by simpa using hs)
  simp only [List.nil_append, List.length_nil, Nat.zero_add] at h100 h50
  have hde : dps.foldl (fun c p => dirCacheInsert c p.1 p.2) []
      = dps.drop (dps.length - 100) := by
    simp only [dirCacheInsert]
    exact h100
  have hse : sps.foldl (fun c p => searchCacheInsert c p.1 p.2) []
      = sps.drop (sps.length - 50) := by
    simp only [searchCacheInsert]
    exact h50
  refine ⟨hde, ?_, hse, ?_⟩
  · rw [hde, List.length_drop]
    omega
  · rw [hse, List.length_drop]
    omega

/-- Witness for C1 (amended) at two concrete distinct-key insertion
sequences. -/
theorem cache_capacity_fifo_witness :
    [("C:\\a", (⟨true, [], ""⟩ : Envelope)),
     ("C:\\b", (⟨true, [], ""⟩ : Envelope))].foldl
        (fun c p => dirCacheInsert c p.1 p.2) []
      = [("C:\\a", (⟨true, [], ""⟩ : Envelope)),
         ("C:\\b", (⟨true, [], ""⟩ : Envelope))].drop
          ([("C:\\a", (⟨true, [], ""⟩ : Envelope)),
            ("C:\\b", (⟨true, [], ""⟩ : Envelope))].length - 100)
    ∧ ([("C:\\a", (⟨true, [], ""⟩ : Envelope)),
        ("C:\\b", (⟨true, [], ""⟩ : Envelope))].foldl
        (fun c p => dirCacheInsert c p.1 p.2) []).length ≤ 100
    ∧ [("C:\\:q", ([] : List FileItem))].foldl
        (fun c p => searchCacheInsert c p.1 p.2) []
      = [("C:\\:q", ([] : List FileItem))].drop
          ([("C:\\:q", ([] : List FileItem))].length - 50)
    ∧ ([("C:\\:q", ([] : List FileItem))].foldl
        (fun c p => searchCacheInsert c p.1 p.2) []).length ≤ 50 :=
  cache_capacity_fifo
    [("C:\\a", (⟨true, [], ""⟩ : Envelope)),
     ("C:\\b", (⟨true, [], ""⟩ : Envelope))]
    [("C:\\:q", ([] : List FileItem))]
    (by decide) (by decide)

end FileAgent
